import Mathlib

/-!
Verification of the OpenClaw memory governance store.

The development shallowly embeds the TypeScript sources
`memory-governance-lib.ts`, `memory-status-lib.ts` and `memory-conflicts.ts`:
pure functions become Lean functions, the on-disk state of the status store
becomes an explicit `Disk` record threaded through the operations, and thrown
errors become `Except` values.  Modelling granularity, stated once here:

* `localeCompare` is modelled as Unicode code-point comparison (`strLt`);
  the two orders agree on the uniform-case ASCII identifiers, topics and
  keys the store works with.
* `Date.parse` of an ISO `YYYY-MM-DD` day (as Node accepts it: months 1..12,
  days bounded by the month length with leap years) is modelled by
  `parseIsoDay`, returning an order-isomorphic day number; the code only ever
  compares these timestamps, never does arithmetic on them.
* A YAML bucket file is modelled by the list of memory items it parses to, in
  file order; `writeMemoryItems` serializes a deterministic function of that
  list, so two files are byte-identical exactly when their item lists are
  equal.  A missing file is `none`.
* JS array `toSorted` with the item comparator is a stable sort by a total
  preorder, hence equal to `List.insertionSort` by the same relation.
-/

deriving instance DecidableEq for Except

namespace OpenClawMemory

/-- Code-point comparison of character lists, the model of the strict part of
JS `localeCompare` (see the module comment). -/
def strLtList : List Char → List Char → Bool
  | [], [] => false
  | [], _ :: _ => true
  | _ :: _, [] => false
  | a :: as, b :: bs =>
    if a.toNat < b.toNat then true
    else if b.toNat < a.toNat then false
    else strLtList as bs

/-- Strict string order: `strLt a b` models `a.localeCompare(b) < 0`. -/
def strLt (a b : String) : Bool := strLtList a.data b.data

/-- Lifecycle status of a memory item (`MemoryStatus` in the source). -/
inductive MemoryStatus
  | active
  | pending
  | deprecated
deriving DecidableEq

/-- Environment component of a scope (`MemoryEnv` in the source). -/
inductive MemoryEnv
  | all
  | prod
  | staging
  | dev
deriving DecidableEq

/-- Scalar item value (`PrimitiveValue` in the source); JS numbers are
modelled as integers, which is faithful for the `===` comparisons the code
performs on values. -/
inductive MemoryValue
  | str (s : String)
  | num (n : Int)
  | bool (b : Bool)
deriving DecidableEq

/-- Confidence level of an item. -/
inductive Confidence
  | high
  | medium
  | low
deriving DecidableEq

/-- Scope of a memory item (`MemoryScope` in the source); `none` models an
absent optional field. -/
structure MemoryScope where
  env : MemoryEnv
  service : Option String
  region : Option String
deriving DecidableEq

/-- A validated memory item (`MemoryItem` in the source).  Dates stay the raw
strings the code stores; they are parsed on demand by `parseIsoDay` exactly as
the code calls `Date.parse`. -/
structure MemoryItem where
  id : String
  topic : String
  key : String
  value : MemoryValue
  status : MemoryStatus
  source : String
  effective_from : String
  expires : String
  scope : MemoryScope
  updated : Option String
  confidence : Option Confidence
  next : Option String
deriving DecidableEq

/-- Numeric value of a decimal digit character, `none` for anything else. -/
def digitVal (c : Char) : Option Nat :=
  if 48 ≤ c.toNat ∧ c.toNat ≤ 57 then some (c.toNat - 48) else none

/-- Gregorian leap-year rule, as implemented by the JS `Date` built-ins. -/
def isLeapYear (y : Nat) : Bool :=
  (y % 4 = 0 && y % 100 ≠ 0) || y % 400 = 0

/-- Number of days of month `m` (1..12) of year `y`. -/
def daysInMonth (y m : Nat) : Nat :=
  if m = 1 ∨ m = 3 ∨ m = 5 ∨ m = 7 ∨ m = 8 ∨ m = 10 ∨ m = 12 then 31
  else if m = 4 ∨ m = 6 ∨ m = 9 ∨ m = 11 then 30
  else if isLeapYear y then 29 else 28

/-- Order-isomorphic encoding of a calendar day: `m * 32 + d` is below `512`
for every real month and day, so the encoding compares exactly like the
`(y, m, d)` lexicographic order, i.e. like the millisecond timestamp the code
obtains from `Date.parse`. -/
def dayNumber (y m d : Nat) : Nat := y * 512 + m * 32 + d

/-- Model of `parseIsoDay`: the `^\d{4}-\d{2}-\d{2}$` regular-expression gate
followed by `Date.parse`, which on a conforming string succeeds exactly for a
real calendar day (see the module comment).  Returns the order-isomorphic day
number. -/
def parseIsoDay (s : String) : Option Nat :=
  match s.data with
  | [y1, y2, y3, y4, '-', m1, m2, '-', d1, d2] =>
    match digitVal y1, digitVal y2, digitVal y3, digitVal y4,
          digitVal m1, digitVal m2, digitVal d1, digitVal d2 with
    | some a, some b, some c, some d, some e, some f, some g, some h =>
      let y := ((a * 10 + b) * 10 + c) * 10 + d
      let m := e * 10 + f
      let day := g * 10 + h
      if 1 ≤ m ∧ m ≤ 12 ∧ 1 ≤ day ∧ day ≤ daysInMonth y m then
        some (dayNumber y m day)
      else none
    | _, _, _, _, _, _, _, _ => none
  | _ => none

/-- Model of `datesOverlap` from `memory-conflicts.ts`: closed-interval
intersection of the two validity windows, `false` as soon as one of the four
dates fails to parse. -/
def datesOverlap (aStart aEnd bStart bEnd : String) : Bool :=
  match parseIsoDay aStart, parseIsoDay aEnd, parseIsoDay bStart, parseIsoDay bEnd with
  | some aS, some aE, some bS, some bE => decide (aS ≤ bE) && decide (bS ≤ aE)
  | _, _, _, _ => none = some 0 -- any null timestamp: the code returns false

/-- JS falsiness of an optional string field: absent (`undefined`) or the
empty string. -/
def strFalsy (o : Option String) : Bool := o.getD "" = ""

/-- Model of `scopesIntersect` from `memory-conflicts.ts`. -/
def scopesIntersect (a b : MemoryScope) : Bool :=
  if ¬(a.env = .all ∨ b.env = .all ∨ a.env = b.env) then false
  else if ¬(strFalsy a.service ∨ strFalsy b.service ∨ a.service = b.service) then false
  else decide (strFalsy a.region ∨ strFalsy b.region ∨ a.region = b.region)

/-- The default `allowedStatuses` of `isConflictPair` (`options.allowedStatuses
?? ["active"]`). -/
def defaultAllowedStatuses : List MemoryStatus := [.active]

/-- Model of `isConflictPair` from `memory-conflicts.ts`; the options record is
passed as its one field, the allowed status list. -/
def isConflictPair (left right : MemoryItem) (allowedStatuses : List MemoryStatus) : Bool :=
  if ¬(left.status ∈ allowedStatuses ∧ right.status ∈ allowedStatuses) then false
  else if left.topic ≠ right.topic ∨ left.key ≠ right.key then false
  else if left.value = right.value then false
  else if ¬(scopesIntersect left.scope right.scope = true) then false
  else datesOverlap left.effective_from left.expires right.effective_from right.expires

/-- Model of `isActiveConflictPair`. -/
def isActiveConflictPair (left right : MemoryItem) : Bool :=
  isConflictPair left right [.active]

/-- Model of `isUnresolvedConflictPair`. -/
def isUnresolvedConflictPair (left right : MemoryItem) : Bool :=
  isConflictPair left right [.active, .pending]

/-- Model of `conflictPairId`: the two ids sorted by `localeCompare` and
joined by a double underscore. -/
def conflictPairId (aId bId : String) : String :=
  if strLt bId aId then bId ++ "__" ++ aId else aId ++ "__" ++ bId

/-- Inner loop of `listConflictPairs`: all pairs `(x, y)` with `x` before `y`
in the scoped list that satisfy the predicate, in enumeration order. -/
def listConflictPairsAux (allowed : List MemoryStatus) :
    List MemoryItem → List (MemoryItem × MemoryItem)
  | [] => []
  | x :: xs =>
    xs.filterMap (fun y => if isConflictPair x y allowed then some (x, y) else none)
      ++ listConflictPairsAux allowed xs

/-- Model of `listConflictPairs`. -/
def listConflictPairs (items : List MemoryItem) (allowed : List MemoryStatus) :
    List (MemoryItem × MemoryItem) :=
  listConflictPairsAux allowed (items.filter (fun item => decide (item.status ∈ allowed)))

/-- Model of `listActiveConflictPairs`. -/
def listActiveConflictPairs (items : List MemoryItem) : List (MemoryItem × MemoryItem) :=
  listConflictPairs items [.active]

/-- Model of `listUnresolvedConflictPairs`. -/
def listUnresolvedConflictPairs (items : List MemoryItem) : List (MemoryItem × MemoryItem) :=
  listConflictPairs items [.active, .pending]

/-! Claim-side readings of the conflict predicate, written from the words of
claim C3 (an unset field being an absent one or, per JS falsiness, an empty
one). -/

/-- The claim C3 reading of an unset optional scope field. -/
def specUnset (o : Option String) : Prop := o = none ∨ o = some ""

/-- The claim C3 reading of scope intersection: env equal or either `all`;
service equal or either unset; region equal or either unset. -/
def specScopesIntersect (a b : MemoryScope) : Prop :=
  (a.env = b.env ∨ a.env = .all ∨ b.env = .all) ∧
  (a.service = b.service ∨ specUnset a.service ∨ specUnset b.service) ∧
  (a.region = b.region ∨ specUnset a.region ∨ specUnset b.region)

/-- The claim C3 reading of window overlap: both closed validity windows are
real calendar intervals and they intersect, inclusively at both ends. -/
def specWindowsOverlap (a b : MemoryItem) : Prop :=
  ∃ aS aE bS bE : Nat,
    parseIsoDay a.effective_from = some aS ∧ parseIsoDay a.expires = some aE ∧
    parseIsoDay b.effective_from = some bS ∧ parseIsoDay b.expires = some bE ∧
    aS ≤ bE ∧ bS ≤ aE

/-- The conflict relation exactly as claim C3 states it: same topic, same key,
different value, intersecting scopes, overlapping windows - and nothing about
statuses. -/
def specConflicts (a b : MemoryItem) : Prop :=
  a.topic = b.topic ∧ a.key = b.key ∧ a.value ≠ b.value ∧
  specScopesIntersect a.scope b.scope ∧ specWindowsOverlap a b

theorem strFalsy_iff_specUnset (o : Option String) : strFalsy o = true ↔ specUnset o := by
  cases o with
  | none => simp [strFalsy, specUnset]
  | some s =>
    simp only [strFalsy, Option.getD, specUnset, decide_eq_true_eq]
    constructor
    · intro h; right; rw [h]
    · rintro (h | h) <;> simp_all

theorem scopesIntersect_iff_spec (a b : MemoryScope) :
    scopesIntersect a b = true ↔ specScopesIntersect a b := by
  unfold scopesIntersect specScopesIntersect
  by_cases h1 : a.env = .all ∨ b.env = .all ∨ a.env = b.env <;>
    by_cases h2 : strFalsy a.service ∨ strFalsy b.service ∨ a.service = b.service <;>
      simp_all [strFalsy_iff_specUnset] <;> tauto

theorem datesOverlap_iff_spec (a b : MemoryItem) :
    datesOverlap a.effective_from a.expires b.effective_from b.expires = true ↔
      specWindowsOverlap a b := by
  unfold datesOverlap specWindowsOverlap
  cases hA : parseIsoDay a.effective_from <;> cases hB : parseIsoDay a.expires <;>
    cases hC : parseIsoDay b.effective_from <;> cases hD : parseIsoDay b.expires <;>
      simp_all

instance (o : Option String) : Decidable (specUnset o) := by
  unfold specUnset; infer_instance

instance (a b : MemoryScope) : Decidable (specScopesIntersect a b) := by
  unfold specScopesIntersect; infer_instance

theorem isConflictPair_char (a b : MemoryItem) (allowed : List MemoryStatus) :
    isConflictPair a b allowed = true ↔
      (a.status ∈ allowed ∧ b.status ∈ allowed ∧ a.topic = b.topic ∧ a.key = b.key ∧
        a.value ≠ b.value ∧ scopesIntersect a.scope b.scope = true ∧
        datesOverlap a.effective_from a.expires b.effective_from b.expires = true) := by
  unfold isConflictPair
  repeat' split
  all_goals try simp_all
  all_goals tauto

/-- C3: the claim omits the status gate that `isConflictPair` opens with; once
both statuses are required to lie in the allowed status list (`["active"]` by
default), the predicate holds exactly under the claimed conditions.  This
theorem is the amended claim for every allowed status list. -/
theorem C3_conflict_predicate_amended (a b : MemoryItem) (allowed : List MemoryStatus) :
    isConflictPair a b allowed = true ↔
      (a.status ∈ allowed ∧ b.status ∈ allowed ∧ specConflicts a b) := by
  rw [isConflictPair_char]
  unfold specConflicts
  rw [← scopesIntersect_iff_spec, ← datesOverlap_iff_spec]

/-- Two pending items that meet every condition the claim lists. -/
def pendingItemA : MemoryItem :=
  { id := "MEM-2024-01-001", topic := "deploy", key := "mode", value := .str "canary"
    status := .pending, source := "docs/deploy.md"
    effective_from := "2024-01-01", expires := "2024-06-01"
    scope := { env := .all, service := none, region := none }
    updated := none, confidence := none, next := none }

/-- Second pending item of the counterexample pair. -/
def pendingItemB : MemoryItem :=
  { id := "MEM-2024-01-002", topic := "deploy", key := "mode", value := .str "blue-green"
    status := .pending, source := "docs/deploy.md"
    effective_from := "2024-03-01", expires := "2024-09-01"
    scope := { env := .prod, service := none, region := none }
    updated := none, confidence := none, next := none }

/-- C3 counterexample: a pending pair satisfies every condition the claim
lists (same topic and key, different value, intersecting scopes, overlapping
closed windows), yet the predicate returns false, because the claim omits the
status gate. -/
theorem C3_conflict_predicate_counterexample :
    specConflicts pendingItemA pendingItemB ∧
      isConflictPair pendingItemA pendingItemB defaultAllowedStatuses = false := by
  refine ⟨⟨rfl, rfl, by decide, by decide, ?_⟩, by decide⟩
  exact ⟨dayNumber 2024 1 1, dayNumber 2024 6 1, dayNumber 2024 3 1, dayNumber 2024 9 1,
    rfl, rfl, rfl, rfl, by decide, by decide⟩

/-! Order lemmas for the string comparison, feeding the sort used by
`sortItems`. -/

theorem charToNat_inj {x y : Char} (h : x.toNat = y.toNat) : x = y :=
  Char.ext (UInt32.ext h)

theorem strLtList_irrefl : ∀ l : List Char, strLtList l l = false := by
  intro l
  induction l with
  | nil => rfl
  | cons x xs ih => simp [strLtList, ih]

theorem strLtList_trans :
    ∀ (a b c : List Char), strLtList a b = true → strLtList b c = true →
      strLtList a c = true := by
  intro a
  induction a with
  | nil =>
    intro b c hab hbc
    cases b <;> cases c <;> simp_all [strLtList]
  | cons x xs ih =>
    intro b c hab hbc
    cases b with
    | nil => simp [strLtList] at hab
    | cons y ys =>
      cases c with
      | nil => simp [strLtList] at hbc
      | cons z zs =>
        simp only [strLtList] at hab hbc ⊢
        by_cases h1 : x.toNat < y.toNat <;> by_cases h2 : y.toNat < x.toNat <;>
          by_cases h3 : y.toNat < z.toNat <;> by_cases h4 : z.toNat < y.toNat <;>
            by_cases h5 : x.toNat < z.toNat <;> by_cases h6 : z.toNat < x.toNat <;>
              simp_all <;> try omega
        exact Or.inr (ih ys zs hab hbc)

theorem strLtList_eq_of_not_lt :
    ∀ (a b : List Char), strLtList a b = false → strLtList b a = false → a = b := by
  intro a
  induction a with
  | nil =>
    intro b hab _
    cases b with
    | nil => rfl
    | cons y ys => simp [strLtList] at hab
  | cons x xs ih =>
    intro b hab hba
    cases b with
    | nil => simp [strLtList] at hba
    | cons y ys =>
      simp only [strLtList] at hab hba
      by_cases h1 : x.toNat < y.toNat
      · simp [h1] at hab
      · by_cases h2 : y.toNat < x.toNat
        · simp [h2] at hba
        · have hxy : x = y := charToNat_inj (by omega)
          subst hxy
          simp [h1] at hab hba
          rw [ih ys hab hba]

theorem string_data_inj {a b : String} (h : a.data = b.data) : a = b := by
  cases a
  cases b
  exact congrArg String.mk h

theorem strLt_irrefl (a : String) : strLt a a = false := strLtList_irrefl a.data

theorem strLt_trans {a b c : String} (hab : strLt a b = true) (hbc : strLt b c = true) :
    strLt a c = true := strLtList_trans a.data b.data c.data hab hbc

theorem strLt_eq_of_not_lt {a b : String} (hab : strLt a b = false)
    (hba : strLt b a = false) : a = b :=
  string_data_inj (strLtList_eq_of_not_lt a.data b.data hab hba)

theorem strLt_asymm {a b : String} (hab : strLt a b = true) : strLt b a = false := by
  by_contra h
  have hba : strLt b a = true := by simpa using h
  have := strLt_trans hab hba
  rw [strLt_irrefl] at this
  exact Bool.false_ne_true this

theorem strLt_connex (a b : String) :
    strLt a b = true ∨ strLt b a = true ∨ a = b := by
  by_cases h1 : strLt a b = true
  · exact .inl h1
  · by_cases h2 : strLt b a = true
    · exact .inr (.inl h2)
    · exact .inr (.inr (strLt_eq_of_not_lt (by simpa using h1) (by simpa using h2)))

theorem strLt_not_of_not {a b c : String} (hba : strLt b a = false)
    (hcb : strLt c b = false) : strLt c a = false := by
  by_contra h
  have hca : strLt c a = true := by simpa using h
  rcases strLt_connex a b with hab | hba' | heq
  · have := strLt_trans hca hab
    rw [show strLt c b = false from hcb] at this
    exact Bool.false_ne_true this
  · simp [hba'] at hba
  · subst heq
    rw [hca] at hcb
    simp at hcb

/-- Model of the comparator of `sortItems` as a weak order: `itemLe a b` holds
exactly when the JS comparator returns a non-positive number on `(a, b)`,
comparing topic, then key, then id. -/
def itemLe (a b : MemoryItem) : Bool :=
  if a.topic ≠ b.topic then strLt a.topic b.topic
  else if a.key ≠ b.key then strLt a.key b.key
  else !(strLt b.id a.id)

/-- The comparator as a decidable relation, for `List.insertionSort`. -/
def itemLeR (a b : MemoryItem) : Prop := itemLe a b = true

instance : DecidableRel itemLeR := fun a b => by unfold itemLeR; infer_instance

theorem itemLe_iff (a b : MemoryItem) : itemLe a b = true ↔
    (strLt a.topic b.topic = true ∨
      (a.topic = b.topic ∧ (strLt a.key b.key = true ∨
        (a.key = b.key ∧ strLt b.id a.id = false)))) := by
  unfold itemLe
  by_cases h1 : a.topic = b.topic <;> by_cases h2 : a.key = b.key <;>
    simp_all [strLt_irrefl]

instance : IsTrans MemoryItem itemLeR := by
  constructor
  intro a b c hab hbc
  unfold itemLeR at *
  rw [itemLe_iff] at *
  rcases hab with h1 | ⟨he1, h1⟩
  · rcases hbc with h2 | ⟨he2, h2⟩
    · exact Or.inl (strLt_trans h1 h2)
    · rw [he2] at h1; exact Or.inl h1
  · rcases hbc with h2 | ⟨he2, h2⟩
    · rw [he1]; exact Or.inl h2
    · refine Or.inr ⟨he1.trans he2, ?_⟩
      rcases h1 with h1 | ⟨hk1, h1⟩
      · rcases h2 with h2 | ⟨hk2, h2⟩
        · exact Or.inl (strLt_trans h1 h2)
        · rw [hk2] at h1; exact Or.inl h1
      · rcases h2 with h2 | ⟨hk2, h2⟩
        · rw [hk1]; exact Or.inl h2
        · exact Or.inr ⟨hk1.trans hk2, strLt_not_of_not h1 h2⟩

instance : IsTotal MemoryItem itemLeR := by
  constructor
  intro a b
  unfold itemLeR
  rw [itemLe_iff, itemLe_iff]
  rcases strLt_connex a.topic b.topic with h | h | h
  · exact Or.inl (Or.inl h)
  · exact Or.inr (Or.inl h)
  · rcases strLt_connex a.key b.key with hk | hk | hk
    · exact Or.inl (Or.inr ⟨h, Or.inl hk⟩)
    · exact Or.inr (Or.inr ⟨h.symm, Or.inl hk⟩)
    · by_cases hid : strLt b.id a.id = true
      · exact Or.inr (Or.inr ⟨h.symm, Or.inr ⟨hk.symm, strLt_asymm hid⟩⟩)
      · exact Or.inl (Or.inr ⟨h, Or.inr ⟨hk, by simpa using hid⟩⟩)

/-- Model of `sortItems`: the JS `toSorted` with the (topic, key, id)
comparator is a stable sort by the total preorder `itemLeR`, which is exactly
`List.insertionSort itemLeR`. -/
def sortItems (items : List MemoryItem) : List MemoryItem :=
  List.insertionSort itemLeR items

theorem sortItems_perm (items : List MemoryItem) : (sortItems items).Perm items :=
  List.perm_insertionSort itemLeR items

theorem mem_sortItems {x : MemoryItem} {items : List MemoryItem} :
    x ∈ sortItems items ↔ x ∈ items :=
  (sortItems_perm items).mem_iff

theorem sortItems_sorted (items : List MemoryItem) :
    List.Sorted itemLeR (sortItems items) :=
  List.sorted_insertionSort itemLeR items

theorem sortItems_idem (items : List MemoryItem) :
    sortItems (sortItems items) = sortItems items :=
  (sortItems_sorted items).insertionSort_eq

theorem sortItems_length (items : List MemoryItem) :
    (sortItems items).length = items.length :=
  (sortItems_perm items).length_eq

/-! Audit and validation engine (`memory-governance-lib.ts`). -/

/-- Issue codes of `AuditIssueCode`; the kebab-case strings of the source
become constructor names. -/
inductive AuditIssueCode
  | schema
  | duplicateId
  | noSource
  | stale
  | conflict
deriving DecidableEq

/-- Model of `AuditIssue`. -/
structure AuditIssue where
  code : AuditIssueCode
  message : String
  ids : List String
deriving DecidableEq

/-- Model of `makeIssue`. -/
def makeIssue (code : AuditIssueCode) (message : String) (ids : List String) : AuditIssue :=
  { code := code, message := message, ids := ids }

/-- Model of `isExpired`: the item expiry date is strictly before today; false
when either date fails to parse. -/
def isExpired (item : MemoryItem) (today : String) : Bool :=
  match parseIsoDay item.expires, parseIsoDay today with
  | some itemTs, some todayTs => decide (itemTs < todayTs)
  | _, _ => false

/-- Occurrence count of an id in a list of ids. -/
def countOcc (ids : List String) (id : String) : Nat :=
  (ids.filter (fun x => decide (x = id))).length

/-- Ids in order of first occurrence: the key order of the insertion-ordered
JS `Map` that `runAudit` builds. -/
def dedupFirst : List String → List String
  | [] => []
  | x :: xs => x :: (dedupFirst xs).filter (fun y => decide (y ≠ x))

/-- Model of `runAudit`: the initial issues, then one duplicate-id issue per
repeated id, one stale issue per expired active item, one conflict issue per
active conflict pair. -/
def runAudit (items : List MemoryItem) (initialIssues : List AuditIssue)
    (today : String) : List AuditIssue :=
  let ids := items.map (fun item => item.id)
  let dupIssues := (dedupFirst ids).filterMap (fun id =>
    if 1 < countOcc ids id then
      some (makeIssue .duplicateId ("Duplicate id " ++ id) [id])
    else none)
  let staleIssues := (items.filter (fun item => decide (item.status = .active))).filterMap
    (fun item =>
      if isExpired item today then
        some (makeIssue .stale ("Item " ++ item.id ++ " is active but expired") [item.id])
      else none)
  let conflictIssues := (listActiveConflictPairs items).map (fun pair =>
    makeIssue .conflict ("Conflict between " ++ pair.1.id ++ " and " ++ pair.2.id)
      [pair.1.id, pair.2.id])
  initialIssues ++ dupIssues ++ staleIssues ++ conflictIssues

/-- Severity of one issue: the codes `auditExitCode` treats as severe. -/
def isSevereIssue (issue : AuditIssue) : Bool :=
  decide (issue.code = .schema ∨ issue.code = .duplicateId ∨
    issue.code = .noSource ∨ issue.code = .conflict)

/-- Model of `auditExitCode`. -/
def auditExitCode (issues : List AuditIssue) : Nat :=
  if issues.any isSevereIssue then 2
  else if issues.any (fun issue => decide (issue.code = .stale)) then 1
  else 0

/-- C2: the audit exit code is 2 exactly when a severe issue (schema,
duplicate id, missing source, conflict) exists; with no severe issue it is 1
exactly when a stale issue exists; with neither it is 0. -/
theorem C2_audit_exit_code (issues : List AuditIssue) :
    (auditExitCode issues = 2 ↔
      ∃ issue ∈ issues, issue.code = .schema ∨ issue.code = .duplicateId ∨
        issue.code = .noSource ∨ issue.code = .conflict) ∧
    ((¬ ∃ issue ∈ issues, issue.code = .schema ∨ issue.code = .duplicateId ∨
        issue.code = .noSource ∨ issue.code = .conflict) →
      (auditExitCode issues = 1 ↔ ∃ issue ∈ issues, issue.code = .stale)) ∧
    ((¬ ∃ issue ∈ issues, issue.code = .schema ∨ issue.code = .duplicateId ∨
        issue.code = .noSource ∨ issue.code = .conflict) →
      (¬ ∃ issue ∈ issues, issue.code = .stale) →
      auditExitCode issues = 0) := by
  have hsev : issues.any isSevereIssue = true ↔
      ∃ issue ∈ issues, issue.code = .schema ∨ issue.code = .duplicateId ∨
        issue.code = .noSource ∨ issue.code = .conflict := by
    simp [List.any_eq_true, isSevereIssue]
  have hstale : (issues.any fun issue => decide (issue.code = AuditIssueCode.stale)) = true ↔
      ∃ issue ∈ issues, issue.code = .stale := by
    simp [List.any_eq_true]
  unfold auditExitCode
  by_cases hs : issues.any isSevereIssue = true
  · rw [if_pos hs]
    exact ⟨⟨fun _ => hsev.mp hs, fun _ => rfl⟩, fun hns => (hns (hsev.mp hs)).elim,
      fun hns _ => (hns (hsev.mp hs)).elim⟩
  · rw [if_neg hs]
    have hnse := fun h => hs (hsev.mpr h)
    by_cases hst : (issues.any fun issue => decide (issue.code = AuditIssueCode.stale)) = true
    · rw [if_pos hst]
      exact ⟨⟨fun h => absurd h (by omega), fun hex => (hnse hex).elim⟩,
        fun _ => ⟨fun _ => hstale.mp hst, fun _ => rfl⟩,
        fun _ hns => (hns (hstale.mp hst)).elim⟩
    · rw [if_neg hst]
      exact ⟨⟨fun h => absurd h (by omega), fun hex => (hnse hex).elim⟩,
        fun _ => ⟨fun h => absurd h (by omega), fun hex => (hst (hstale.mpr hex)).elim⟩,
        fun _ _ => rfl⟩

/-! File lock manager (`withFileLock` in `memory-governance-lib.ts`).  Times
are integer milliseconds. -/

/-- Default lock timeout (30 s). -/
def DEFAULT_LOCK_TIMEOUT_MS : Int := 30000

/-- Default lock poll interval (200 ms). -/
def DEFAULT_LOCK_RETRY_MS : Int := 200

/-- Default lock staleness threshold (15 minutes). -/
def DEFAULT_LOCK_STALE_MS : Int := 15 * 60 * 1000

/-- The optional configuration fields of the `withFileLock` params record. -/
structure LockParams where
  timeoutMs : Option Int
  retryMs : Option Int
  staleMs : Option Int

/-- The effective configuration after defaulting and clamping. -/
structure LockConfig where
  timeoutMs : Int
  retryMs : Int
  staleMs : Int
deriving DecidableEq

/-- Model of the three clamping lines that open `withFileLock`. -/
def resolveLockConfig (params : LockParams) : LockConfig :=
  { timeoutMs := max 1000 (params.timeoutMs.getD DEFAULT_LOCK_TIMEOUT_MS)
    retryMs := max 50 (params.retryMs.getD DEFAULT_LOCK_RETRY_MS)
    staleMs := max 60000 (params.staleMs.getD DEFAULT_LOCK_STALE_MS) }

/-- What one collision iteration of the acquisition loop does (the branch of
`withFileLock` entered when exclusive creation fails with EEXIST). -/
inductive LockCollisionStep
  | reclaimAndRetry
  | failTimeout
  | sleepAndRetry (ms : Int)
deriving DecidableEq

/-- Model of the EEXIST branch of `withFileLock`: `ageMs` is the existing
lock file age as `readLockAgeMs` returns it (`none` when the stat fails),
`now` the fresh reading of the clock at the timeout test, `startedAt` the
clock reading before the first attempt.  `reclaimAndRetry` deletes the stale
lock file and re-enters the loop with no sleep; `failTimeout` throws the
timeout error and does not retry; `sleepAndRetry ms` sleeps `ms` milliseconds
and re-enters the loop. -/
def lockCollisionStep (cfg : LockConfig) (ageMs : Option Int) (now startedAt : Int) :
    LockCollisionStep :=
  if (match ageMs with
      | some a => decide (a > cfg.staleMs)
      | none => false) = true then
    .reclaimAndRetry
  else if now - startedAt ≥ cfg.timeoutMs then
    .failTimeout
  else
    .sleepAndRetry cfg.retryMs

/-- C5: on a lock collision, a stale lock (age above the threshold) is
reclaimed and retried immediately with no sleep; otherwise the caller sleeps
the poll interval and retries while the elapsed time is below the timeout,
and fails with the timeout error instead of retrying once the elapsed time
reaches it. -/
theorem C5_lock_collision_behavior (cfg : LockConfig) (ageMs : Option Int)
    (now startedAt a : Int) :
    (ageMs = some a → a > cfg.staleMs →
      lockCollisionStep cfg ageMs now startedAt = .reclaimAndRetry) ∧
    ((ageMs = none ∨ (ageMs = some a ∧ a ≤ cfg.staleMs)) →
      now - startedAt < cfg.timeoutMs →
      lockCollisionStep cfg ageMs now startedAt = .sleepAndRetry cfg.retryMs) ∧
    ((ageMs = none ∨ (ageMs = some a ∧ a ≤ cfg.staleMs)) →
      now - startedAt ≥ cfg.timeoutMs →
      lockCollisionStep cfg ageMs now startedAt = .failTimeout) := by
  refine ⟨fun hsome hstale => ?_, fun hfresh htime => ?_, fun hfresh htime => ?_⟩
  · subst hsome
    simp [lockCollisionStep, hstale]
  · rcases hfresh with hnone | ⟨hsome, hle⟩
    · subst hnone
      simp [lockCollisionStep, htime, not_le.mpr htime]
    · subst hsome
      simp [lockCollisionStep, not_lt.mpr hle, htime, not_le.mpr htime]
  · rcases hfresh with hnone | ⟨hsome, hle⟩
    · subst hnone
      simp [lockCollisionStep, htime]
    · subst hsome
      simp [lockCollisionStep, not_lt.mpr hle, htime]

/-- C10: the effective lock configuration is clamped from below - the timeout
to at least 1000 ms, the poll interval to at least 50 ms, the staleness
threshold to at least 60000 ms - whatever the caller passes; in particular a
requested 5-second staleness threshold becomes 60 seconds. -/
theorem C10_lock_config_clamped (params : LockParams) :
    1000 ≤ (resolveLockConfig params).timeoutMs ∧
    50 ≤ (resolveLockConfig params).retryMs ∧
    60000 ≤ (resolveLockConfig params).staleMs ∧
    (resolveLockConfig { params with staleMs := some 5000 }).staleMs = 60000 := by
  refine ⟨le_max_left _ _, le_max_left _ _, le_max_left _ _, ?_⟩
  simp [resolveLockConfig]

/-! Raw record validation (`buildItem` and the loop of `readMemoryItems`).
A parsed YAML value is modelled by `RawValue`; an absent field (JS
`undefined`) is the absence of the `Option`. -/

/-- A parsed YAML/JSON value. -/
inductive RawValue
  | null
  | str (s : String)
  | num (n : Int)
  | bool (b : Bool)
  | arr (elems : List RawValue)
  | obj (fields : List (String × RawValue))

/-- Field lookup on a raw object. -/
def getField : List (String × RawValue) → String → Option RawValue
  | [], _ => none
  | (k, v) :: rest, name => if k = name then some v else getField rest name

/-- Model of `asObject`: an object and nothing else (`null`, arrays and
scalars are rejected). -/
def asObject : RawValue → Option (List (String × RawValue))
  | .obj fields => some fields
  | _ => none

/-- JS whitespace to trim, modelled on the ASCII whitespace characters. -/
def isWsChar (c : Char) : Bool := decide (c.toNat = 32 ∨ c.toNat = 9 ∨ c.toNat = 10 ∨ c.toNat = 13)

/-- Leading whitespace removal. -/
def dropWs : List Char → List Char
  | [] => []
  | c :: cs => if isWsChar c then dropWs cs else c :: cs

/-- Model of `String.prototype.trim`. -/
def strTrim (s : String) : String :=
  ⟨(dropWs (dropWs s.data.reverse).reverse)⟩

/-- ASCII lower-casing of one character, the fragment of `toLowerCase` the
status and env keywords exercise. -/
def charLower (c : Char) : Char :=
  if 65 ≤ c.toNat ∧ c.toNat ≤ 90 then Char.ofNat (c.toNat + 32) else c

/-- Model of `String.prototype.toLowerCase` on ASCII data. -/
def strLower (s : String) : String := ⟨s.data.map charLower⟩

/-- Model of `asString` applied to a possibly absent field: a string whose
trimming is nonempty, trimmed. -/
def asStringOpt (v : Option RawValue) : Option String :=
  match v with
  | some (.str s) =>
    let trimmed := strTrim s
    if trimmed.length = 0 then none else some trimmed
  | _ => none

/-- Model of `primitiveValue` applied to a possibly absent field. -/
def primitiveValueOpt (v : Option RawValue) : Option MemoryValue :=
  match v with
  | some (.str s) => some (.str s)
  | some (.num n) => some (.num n)
  | some (.bool b) => some (.bool b)
  | _ => none

/-- Model of `normalizeStatus` applied to a possibly absent field. -/
def normalizeStatus (v : Option RawValue) : Option MemoryStatus :=
  match v with
  | some (.str s) =>
    let normalized := strLower (strTrim s)
    if normalized = "active" then some .active
    else if normalized = "pending" then some .pending
    else if normalized = "deprecated" then some .deprecated
    else none
  | _ => none

/-- Model of `normalizeEnv` applied to a possibly absent field: absence means
`all`, a non-string is invalid. -/
def normalizeEnv (v : Option RawValue) : Option MemoryEnv :=
  match v with
  | none => some .all
  | some (.str s) =>
    let normalized := strLower (strTrim s)
    if normalized = "all" then some .all
    else if normalized = "prod" then some .prod
    else if normalized = "staging" then some .staging
    else if normalized = "dev" then some .dev
    else none
  | some _ => none

/-- Model of `normalizeConfidence` applied to a possibly absent field; never
an error, anything unrecognized is simply dropped. -/
def normalizeConfidence (v : Option RawValue) : Option Confidence :=
  match v with
  | some (.str s) =>
    let normalized := strLower (strTrim s)
    if normalized = "high" then some .high
    else if normalized = "medium" then some .medium
    else if normalized = "low" then some .low
    else none
  | _ => none

/-- Decimal digit test on a character. -/
def isDigitChar (c : Char) : Bool := decide (48 ≤ c.toNat ∧ c.toNat ≤ 57)

/-- Model of the `^MEM-\d{4}-\d{2}-\d{3}$` id pattern. -/
def idPatternOk (s : String) : Bool :=
  match s.data with
  | ['M', 'E', 'M', '-', a, b, c, d, '-', e, f, '-', g, h, i] =>
    isDigitChar a && isDigitChar b && isDigitChar c && isDigitChar d &&
    isDigitChar e && isDigitChar f && isDigitChar g && isDigitChar h && isDigitChar i
  | _ => false

/-- Character-list version of `startsWith`. -/
def charsStart : List Char → List Char → Bool
  | [], _ => true
  | _ :: _, [] => false
  | p :: ps, c :: cs => decide (p = c) && charsStart ps cs

/-- Model of `source.startsWith(p)`. -/
def strStarts (s p : String) : Bool := charsStart p.data s.data

/-- Model of `isValidSource`: the provenance allow-list. -/
def isValidSource (source : String) : Bool :=
  strStarts source "https://" || strStarts source "docs/" ||
  strStarts source "memory/" || strStarts source "src/"

/-- The label used in `buildItem` messages: the id when present, the 1-based
record ordinal otherwise. -/
def labelOf (id? : Option String) (index : Nat) : String :=
  match id? with
  | some i => i
  | none => "#" ++ toString (index + 1)

/-- The ids attached to `buildItem` issues: the id when present. -/
def idsOf (id? : Option String) : List String :=
  match id? with
  | some i => [i]
  | none => []

/-- The id issues of `buildItem`: missing id, or an id off the pattern. -/
def idIssues (id? : Option String) (index : Nat) : List AuditIssue :=
  match id? with
  | none => [makeIssue .schema ("Item #" ++ toString (index + 1) ++ " is missing id") []]
  | some i =>
    if idPatternOk i then []
    else [makeIssue .schema ("Item " ++ i ++ " has invalid id format") [i]]

/-- The issue list of a required trimmed-string field of `buildItem`. -/
def missingStrIssues (field? : Option String) (what label : String) (ids : List String) :
    List AuditIssue :=
  match field? with
  | none => [makeIssue .schema ("Item " ++ label ++ " is missing " ++ what) ids]
  | some _ => []

/-- The value-type issue of `buildItem`. -/
def valueIssues (value? : Option MemoryValue) (label : String) (ids : List String) :
    List AuditIssue :=
  match value? with
  | none => [makeIssue .schema ("Item " ++ label ++ " has invalid value type") ids]
  | some _ => []

/-- The status issue of `buildItem`. -/
def statusIssues (status? : Option MemoryStatus) (label : String) (ids : List String) :
    List AuditIssue :=
  match status? with
  | none => [makeIssue .schema ("Item " ++ label ++ " has invalid status") ids]
  | some _ => []

/-- The source issues of `buildItem`: missing source or one off the
allow-list; in both cases the code is no-source, not schema. -/
def sourceIssues (source? : Option String) (label : String) (ids : List String) :
    List AuditIssue :=
  match source? with
  | none => [makeIssue .noSource ("Item " ++ label ++ " is missing source") ids]
  | some s =>
    if isValidSource s then []
    else [makeIssue .noSource ("Item " ++ label ++ " has invalid source " ++ s) ids]

/-- The issue list of a required date field of `buildItem`. -/
def dateIssues (date? : Option String) (what label : String) (ids : List String) :
    List AuditIssue :=
  match date? with
  | none => [makeIssue .schema ("Item " ++ label ++ " has invalid " ++ what ++ " date") ids]
  | some d =>
    if (parseIsoDay d).isSome then []
    else [makeIssue .schema ("Item " ++ label ++ " has invalid " ++ what ++ " date") ids]

/-- The window-order issue of `buildItem`: both dates present and parsed,
with effective_from after expires. -/
def rangeIssues (eff? exp? : Option String) (label : String) (ids : List String) :
    List AuditIssue :=
  match eff?, exp? with
  | some e, some x =>
    match parseIsoDay e, parseIsoDay x with
    | some et, some xt =>
      if et > xt then [makeIssue .schema ("Item " ++ label ++ " has effective_from after expires") ids]
      else []
    | _, _ => []
  | _, _ => []

/-- The invalid-scope issue of `buildItem`: a scope field that is present but
not an object. -/
def scopeObjIssues (scopeField? : Option RawValue) (label : String) (ids : List String) :
    List AuditIssue :=
  match scopeField? with
  | none => []
  | some v =>
    match asObject v with
    | none => [makeIssue .schema ("Item " ++ label ++ " has invalid scope") ids]
    | some _ => []

/-- The env issue of `buildItem`. -/
def envIssues (env? : Option MemoryEnv) (label : String) (ids : List String) :
    List AuditIssue :=
  match env? with
  | none => [makeIssue .schema ("Item " ++ label ++ " has invalid scope.env") ids]
  | some _ => []

/-- The updated-date issue of `buildItem`: only when present and unparsable. -/
def updatedIssues (updated? : Option String) (label : String) (ids : List String) :
    List AuditIssue :=
  match updated? with
  | none => []
  | some u =>
    if (parseIsoDay u).isSome then []
    else [makeIssue .schema ("Item " ++ label ++ " has invalid updated date") ids]

/-- Result of validating one raw record. -/
structure BuildResult where
  item : Option MemoryItem
  issues : List AuditIssue
deriving DecidableEq

/-- Model of `buildItem`: every field of the record validated independently,
the issues collected in source order, the item produced only when no field
failed.  Each issue group is the named helper above; the concatenation order
matches the push order of the source. -/
def buildItem (raw : RawValue) (index : Nat) : BuildResult :=
  match asObject raw with
  | none =>
    { item := none
      issues := [makeIssue .schema ("Item #" ++ toString (index + 1) ++ " is not a valid object") []] }
  | some obj =>
    let id? := asStringOpt (getField obj "id")
    let label := labelOf id? index
    let ids := idsOf id?
    let topic? := asStringOpt (getField obj "topic")
    let key? := asStringOpt (getField obj "key")
    let value? := primitiveValueOpt (getField obj "value")
    let status? := normalizeStatus (getField obj "status")
    let source? := asStringOpt (getField obj "source")
    let effectiveFrom? := asStringOpt (getField obj "effective_from")
    let expires? := asStringOpt (getField obj "expires")
    let scopeField? := getField obj "scope"
    let scopeRaw? : Option (List (String × RawValue)) :=
      match scopeField? with
      | none => some []
      | some v => asObject v
    let env? := normalizeEnv (scopeRaw?.bind (fun fields => getField fields "env"))
    let service? := asStringOpt (scopeRaw?.bind (fun fields => getField fields "service"))
    let region? := asStringOpt (scopeRaw?.bind (fun fields => getField fields "region"))
    let updated? := asStringOpt (getField obj "updated")
    let next? := asStringOpt (getField obj "next")
    let confidence? := normalizeConfidence (getField obj "confidence")
    let issues :=
      idIssues id? index ++ missingStrIssues topic? "topic" label ids ++
      missingStrIssues key? "key" label ids ++ valueIssues value? label ids ++
      statusIssues status? label ids ++ sourceIssues source? label ids ++
      dateIssues effectiveFrom? "effective_from" label ids ++
      dateIssues expires? "expires" label ids ++
      rangeIssues effectiveFrom? expires? label ids ++
      scopeObjIssues scopeField? label ids ++ envIssues env? label ids ++
      updatedIssues updated? label ids
    { item :=
        if 0 < issues.length ∨ id? = none ∨ topic? = none ∨ key? = none ∨ value? = none ∨
            status? = none ∨ source? = none ∨ effectiveFrom? = none ∨ expires? = none ∨
            env? = none then
          none
        else
          some
            { id := id?.getD "", topic := topic?.getD "", key := key?.getD ""
              value := value?.getD (.str ""), status := status?.getD .active
              source := source?.getD "", effective_from := effectiveFrom?.getD ""
              expires := expires?.getD ""
              scope := { env := env?.getD .all, service := service?, region := region? }
              updated := updated?, confidence := confidence?, next := next? }
      issues := issues }

/-- The record loop of `readMemoryItems`: items of valid records in order,
all issues in order, one record never blocking another. -/
def readItemsLoop : List RawValue → Nat → List MemoryItem × List AuditIssue
  | [], _ => ([], [])
  | r :: rs, index =>
    let result := buildItem r index
    let rest := readItemsLoop rs (index + 1)
    (match result.item with
     | some item => item :: rest.1
     | none => rest.1,
     result.issues ++ rest.2)

/-- Model of the loop of `readMemoryItems` over an already parsed YAML list
(the file-level wrappers around the loop live in the Disk model below). -/
def readMemoryItemsList (records : List RawValue) : List MemoryItem × List AuditIssue :=
  readItemsLoop records 0

theorem idIssues_code (id? : Option String) (index : Nat) :
    ∀ issue ∈ idIssues id? index, issue.code = .schema := by
  intro issue h
  unfold idIssues at h
  cases id? with
  | none => simp at h; rw [h]; rfl
  | some i =>
    by_cases hp : idPatternOk i = true <;> simp [hp] at h <;> simp [h, makeIssue]

theorem missingStrIssues_code (field? : Option String) (what label : String)
    (ids : List String) : ∀ issue ∈ missingStrIssues field? what label ids,
      issue.code = .schema := by
  intro issue h
  unfold missingStrIssues at h
  cases field? <;> simp at h
  rw [h]; rfl

theorem valueIssues_code (value? : Option MemoryValue) (label : String) (ids : List String) :
    ∀ issue ∈ valueIssues value? label ids, issue.code = .schema := by
  intro issue h
  unfold valueIssues at h
  cases value? <;> simp at h
  rw [h]; rfl

theorem statusIssues_code (status? : Option MemoryStatus) (label : String)
    (ids : List String) : ∀ issue ∈ statusIssues status? label ids, issue.code = .schema := by
  intro issue h
  unfold statusIssues at h
  cases status? <;> simp at h
  rw [h]; rfl

theorem sourceIssues_code (source? : Option String) (label : String) (ids : List String) :
    ∀ issue ∈ sourceIssues source? label ids, issue.code = .noSource := by
  intro issue h
  unfold sourceIssues at h
  cases source? with
  | none => simp at h; rw [h]; rfl
  | some s =>
    by_cases hs : isValidSource s = true <;> simp [hs] at h <;> simp [h, makeIssue]

theorem dateIssues_code (date? : Option String) (what label : String) (ids : List String) :
    ∀ issue ∈ dateIssues date? what label ids, issue.code = .schema := by
  intro issue h
  unfold dateIssues at h
  cases date? with
  | none => simp at h; rw [h]; rfl
  | some d =>
    by_cases hd : (parseIsoDay d).isSome = true <;> simp [hd] at h <;> simp [h, makeIssue]

theorem rangeIssues_code (eff? exp? : Option String) (label : String) (ids : List String) :
    ∀ issue ∈ rangeIssues eff? exp? label ids, issue.code = .schema := by
  intro issue h
  unfold rangeIssues at h
  cases eff? with
  | none => simp at h
  | some e =>
    cases exp? with
    | none => simp at h
    | some x =>
      rcases hp : parseIsoDay e with _ | et <;> simp only [hp] at h
      · simp at h
      · rcases hq : parseIsoDay x with _ | xt <;> simp only [hq] at h
        · simp at h
        · by_cases hgt : et > xt <;> simp [hgt] at h <;> simp [h, makeIssue]

theorem scopeObjIssues_code (scopeField? : Option RawValue) (label : String)
    (ids : List String) : ∀ issue ∈ scopeObjIssues scopeField? label ids,
      issue.code = .schema := by
  intro issue h
  unfold scopeObjIssues at h
  cases scopeField? with
  | none => simp at h
  | some v =>
    rcases hv : asObject v with _ | fields <;> simp [hv] at h
    simp [h, makeIssue]

theorem envIssues_code (env? : Option MemoryEnv) (label : String) (ids : List String) :
    ∀ issue ∈ envIssues env? label ids, issue.code = .schema := by
  intro issue h
  unfold envIssues at h
  cases env? <;> simp at h
  rw [h]; rfl

theorem updatedIssues_code (updated? : Option String) (label : String) (ids : List String) :
    ∀ issue ∈ updatedIssues updated? label ids, issue.code = .schema := by
  intro issue h
  unfold updatedIssues at h
  cases updated? with
  | none => simp at h
  | some u =>
    by_cases hu : (parseIsoDay u).isSome = true <;> simp [hu] at h <;> simp [h, makeIssue]

theorem buildItem_issues_codes (raw : RawValue) (index : Nat) :
    ∀ issue ∈ (buildItem raw index).issues,
      issue.code = .schema ∨ issue.code = .noSource := by
  intro issue h
  unfold buildItem at h
  cases hobj : asObject raw with
  | none =>
    rw [hobj] at h
    simp [makeIssue] at h
    rw [h]
    exact Or.inl rfl
  | some obj =>
    rw [hobj] at h
    simp only [List.mem_append, or_assoc] at h
    rcases h with h | h | h | h | h | h | h | h | h | h | h | h
    · exact Or.inl (idIssues_code _ _ _ h)
    · exact Or.inl (missingStrIssues_code _ _ _ _ _ h)
    · exact Or.inl (missingStrIssues_code _ _ _ _ _ h)
    · exact Or.inl (valueIssues_code _ _ _ _ h)
    · exact Or.inl (statusIssues_code _ _ _ _ h)
    · exact Or.inr (sourceIssues_code _ _ _ _ h)
    · exact Or.inl (dateIssues_code _ _ _ _ _ h)
    · exact Or.inl (dateIssues_code _ _ _ _ _ h)
    · exact Or.inl (rangeIssues_code _ _ _ _ _ h)
    · exact Or.inl (scopeObjIssues_code _ _ _ _ h)
    · exact Or.inl (envIssues_code _ _ _ _ h)
    · exact Or.inl (updatedIssues_code _ _ _ _ h)

theorem buildItem_item_none_iff (raw : RawValue) (index : Nat) :
    (buildItem raw index).item = none ↔ (buildItem raw index).issues ≠ [] := by
  unfold buildItem
  cases hobj : asObject raw with
  | none => simp
  | some obj =>
    simp only []
    split
    case isTrue hcond =>
      simp only [true_iff]
      rcases hcond with h | h | h | h | h | h | h | h | h | h
      · exact List.length_pos.mp h
      · simp [h, idIssues]
      · simp [h, missingStrIssues, List.append_eq_nil]
      · simp [h, missingStrIssues, List.append_eq_nil]
      · simp [h, valueIssues, List.append_eq_nil]
      · simp [h, statusIssues, List.append_eq_nil]
      · simp [h, sourceIssues, List.append_eq_nil]
      · simp [h, dateIssues, List.append_eq_nil]
      · simp [h, dateIssues, List.append_eq_nil]
      · simp [h, envIssues, List.append_eq_nil]
    case isFalse hcond =>
      push_neg at hcond
      rw [List.length_eq_zero.mp (Nat.le_zero.mp hcond.1)]
      simp

theorem readItemsLoop_spec (records : List RawValue) :
    ∀ start : Nat, readItemsLoop records start =
      ((List.enumFrom start records).filterMap (fun p => (buildItem p.2 p.1).item),
        ((List.enumFrom start records).map (fun p => (buildItem p.2 p.1).issues)).join) := by
  induction records with
  | nil => intro start; rfl
  | cons r rs ih =>
    intro start
    simp only [readItemsLoop, List.enumFrom_cons, List.filterMap_cons, List.map_cons,
      List.flatten, ih (start + 1)]
    cases (buildItem r start).item <;> rfl

/-- C7: validation of a list of raw records is per-record and total.  The
items are exactly the per-record items of the valid records in order, the
issues the concatenation of the per-record issue lists in order (so a failing
record never blocks any other), a record fails exactly when it contributed at
least one issue, and every per-record issue carries the code schema - except
for provenance (source) errors, whose code is no-source, which is the one
correction to the claim. -/
theorem C7_record_validation_amended (records : List RawValue) :
    (readMemoryItemsList records).1 =
        records.enum.filterMap (fun p => (buildItem p.2 p.1).item) ∧
    (readMemoryItemsList records).2 =
        (records.enum.map (fun p => (buildItem p.2 p.1).issues)).join ∧
    (∀ raw index, ((buildItem raw index).item = none ↔ (buildItem raw index).issues ≠ [])) ∧
    (∀ raw index, ∀ issue ∈ (buildItem raw index).issues,
      issue.code = .schema ∨ issue.code = .noSource) := by
  refine ⟨?_, ?_, buildItem_item_none_iff, buildItem_issues_codes⟩
  · rw [readMemoryItemsList, readItemsLoop_spec records 0]
    rfl
  · rw [readMemoryItemsList, readItemsLoop_spec records 0]
    rfl

/-- A record that is valid in every field except the absent source. -/
def sourcelessRecord : RawValue :=
  .obj [("id", .str "MEM-2024-01-001"), ("topic", .str "deploy"), ("key", .str "mode"),
    ("value", .str "canary"), ("status", .str "active"),
    ("effective_from", .str "2024-01-01"), ("expires", .str "2024-06-01")]

/-- C7 counterexample: a record whose one field error is a missing source is
rejected with a nonempty issue list containing no issue of code schema (its
issue has code no-source), against the claim that records with field errors
contribute issues with code schema. -/
theorem C7_record_validation_counterexample :
    (buildItem sourcelessRecord 0).item = none ∧
    (buildItem sourcelessRecord 0).issues ≠ [] ∧
    (buildItem sourcelessRecord 0).issues.all
      (fun issue => decide (issue.code ≠ .schema)) = true := by
  refine ⟨by decide, by decide, by decide⟩

/-! Status store (`memory-status-lib.ts`).  The on-disk state the store works
with is the `Disk` record below: the three bucket files, the canonical merged
file and the runtime read-projection, each file modelled by its parsed item
list (see the module comment) and `none` when missing.  The file-lock
acquisition wrapping every operation serializes the calls; the per-call body
between acquisition and release is the pure state transformation modelled
here.  `today` is always the explicit day argument (`formatDateNowUtc` reads
ambient time, outside the model). -/

/-- Model of the `StatusBuckets` record. -/
structure StatusBuckets where
  active : List MemoryItem
  pending : List MemoryItem
  deprecated : List MemoryItem
deriving DecidableEq

/-- Bucket list selection, `buckets[status]` read. -/
def bucketList (b : StatusBuckets) : MemoryStatus → List MemoryItem
  | .active => b.active
  | .pending => b.pending
  | .deprecated => b.deprecated

/-- Bucket list update, `buckets[status]` write. -/
def setBucket (b : StatusBuckets) (st : MemoryStatus) (l : List MemoryItem) : StatusBuckets :=
  match st with
  | .active => { b with active := l }
  | .pending => { b with pending := l }
  | .deprecated => { b with deprecated := l }

/-- The on-disk state of the store. -/
structure Disk where
  activeFile : Option (List MemoryItem)
  pendingFile : Option (List MemoryItem)
  deprecatedFile : Option (List MemoryItem)
  canonicalFile : Option (List MemoryItem)
  runtimeFile : List MemoryItem
deriving DecidableEq

/-- The bucket file of one status. -/
def bucketFile (d : Disk) : MemoryStatus → Option (List MemoryItem)
  | .active => d.activeFile
  | .pending => d.pendingFile
  | .deprecated => d.deprecatedFile

/-- Model of `loadStatusBuckets`: each existing bucket file contributes its
items in file order with the status field overwritten by the bucket's status;
a missing file contributes nothing. -/
def loadStatusBuckets (d : Disk) : StatusBuckets :=
  { active := (d.activeFile.getD []).map (fun item => { item with status := .active })
    pending := (d.pendingFile.getD []).map (fun item => { item with status := .pending })
    deprecated :=
      (d.deprecatedFile.getD []).map (fun item => { item with status := .deprecated }) }

/-- Model of `saveStatusBuckets`: every bucket re-sorted deterministically and
written (atomically) to its file. -/
def saveStatusBuckets (d : Disk) (b : StatusBuckets) : Disk :=
  { d with
    activeFile := some (sortItems b.active)
    pendingFile := some (sortItems b.pending)
    deprecatedFile := some (sortItems b.deprecated) }

/-- Model of `flattenBuckets`. -/
def flattenBuckets (b : StatusBuckets) : List MemoryItem :=
  sortItems (b.active ++ b.pending ++ b.deprecated)

/-- The seeding loop of `ensureStatusBuckets`: the canonical items
partitioned by their own status, order preserved. -/
def seedBuckets (items : List MemoryItem) : StatusBuckets :=
  { active := items.filter (fun item => decide (item.status = .active))
    pending := items.filter (fun item => decide (item.status = .pending))
    deprecated := items.filter (fun item => decide (item.status = .deprecated)) }

/-- Model of `ensureStatusBuckets`: normalize (load and resave) when any
bucket file exists, otherwise seed the buckets from the canonical file. -/
def ensureStatusBuckets (d : Disk) : Disk :=
  if d.activeFile.isSome || d.pendingFile.isSome || d.deprecatedFile.isSome then
    saveStatusBuckets d (loadStatusBuckets d)
  else
    saveStatusBuckets d (seedBuckets (d.canonicalFile.getD []))

/-- The buckets an operation sees: ensure, then load. -/
def loadedBuckets (d : Disk) : StatusBuckets :=
  loadStatusBuckets (ensureStatusBuckets d)

/-- Model of `rebuildUnifiedMemory`: the canonical file is the flattened
bucket union. -/
def rebuildUnifiedMemory (d : Disk) (b : StatusBuckets) : Disk :=
  { d with canonicalFile := some (flattenBuckets b) }

/-- Model of `renderRuntimeActiveMemory`: the runtime projection renders the
active items of the flattened union (the topic shards derived from the same
list are elided). -/
def renderRuntimeActiveMemory (d : Disk) (b : StatusBuckets) : Disk :=
  { d with runtimeFile := (flattenBuckets b).filter (fun item => decide (item.status = .active)) }

/-- Model of the counts record `countsByStatus` builds. -/
structure StatusCounts where
  active : Nat
  pending : Nat
  deprecated : Nat
deriving DecidableEq

/-- Model of `countsByStatus`. -/
def countsByStatus (b : StatusBuckets) : StatusCounts :=
  { active := b.active.length, pending := b.pending.length, deprecated := b.deprecated.length }

/-- A located item: bucket status, index in the bucket, the item. -/
structure Located where
  status : MemoryStatus
  index : Nat
  item : MemoryItem
deriving DecidableEq

/-- First index and item with the given id (`findIndex` of the source). -/
def findIdxItem : List MemoryItem → String → Option (Nat × MemoryItem)
  | [], _ => none
  | x :: xs, id =>
    if x.id = id then some (0, x)
    else (findIdxItem xs id).map (fun p => (p.1 + 1, p.2))

/-- Model of `findItemStatus`: the buckets searched in the fixed status
order. -/
def findItemStatus (b : StatusBuckets) (id : String) : Option Located :=
  match findIdxItem b.active id with
  | some p => some { status := .active, index := p.1, item := p.2 }
  | none =>
    match findIdxItem b.pending id with
    | some p => some { status := .pending, index := p.1, item := p.2 }
    | none =>
      match findIdxItem b.deprecated id with
      | some p => some { status := .deprecated, index := p.1, item := p.2 }
      | none => none

/-- Removal of the bucket entry at one located position (`splice`). -/
def eraseAt (b : StatusBuckets) (st : MemoryStatus) (ix : Nat) : StatusBuckets :=
  setBucket b st ((bucketList b st).eraseIdx ix)

/-- Append to one bucket (`push`). -/
def pushBucket (b : StatusBuckets) (st : MemoryStatus) (item : MemoryItem) : StatusBuckets :=
  setBucket b st (bucketList b st ++ [item])

/-- The errors the store operations throw. -/
inductive OpError
  | notFound (id : String)
  | sameIds
  | notConflictPair
  | invalidKeep (keepId : String)
  | severeAudit
  | missingAfterUpdate (id : String)
  | removeNotFound (id : String)
  | removeFailed (id : String)
deriving DecidableEq

/-- Model of the audit of the canonical file (`auditMemory` as called on
`paths.memoryPath`): read issues of a missing file, then the global audit
checks over the read items. -/
def auditCanonical (d : Disk) (today : String) : List AuditIssue :=
  runAudit (d.canonicalFile.getD [])
    (if d.canonicalFile.isSome then [] else [makeIssue .schema "Missing memory file" []])
    today

/-- Model of the commit block shared by the mutating operations: save the
mutated buckets, rebuild the canonical file, run the audit; on a severe
verdict restore the previous snapshot to buckets, canonical file and runtime
projection and report failure (`false`); otherwise render the runtime
projection and report success (`true`). -/
def commitOrRollback (dN : Disk) (previous current : StatusBuckets) (today : String) :
    Disk × Bool :=
  let d1 := saveStatusBuckets dN current
  let d2 := rebuildUnifiedMemory d1 current
  if auditExitCode (auditCanonical d2 today) = 2 then
    let r1 := saveStatusBuckets d2 previous
    let r2 := rebuildUnifiedMemory r1 previous
    let r3 := renderRuntimeActiveMemory r2 previous
    (r3, false)
  else
    (renderRuntimeActiveMemory d2 current, true)

/-- Result record of `applyStatusChange`. -/
structure ChangeResult where
  fromStatus : MemoryStatus
  toStatus : MemoryStatus
  item : MemoryItem
  counts : StatusCounts
deriving DecidableEq

/-- The commit tail of `applyStatusChange`: the shared commit-or-rollback
block, then the result assembled from the relocated item. -/
def finishStatusChange (dN : Disk) (previous current : StatusBuckets) (located : Located)
    (toStatus : MemoryStatus) (id : String) (today : String) :
    Disk × Except OpError ChangeResult :=
  let commit := commitOrRollback dN previous current today
  if commit.2 = false then
    (commit.1, .error .severeAudit)
  else
    match findItemStatus current id with
    | none => (commit.1, .error (.missingAfterUpdate id))
    | some updatedLoc =>
      (commit.1, .ok
        { fromStatus := located.status, toStatus := toStatus, item := updatedLoc.item
          counts := countsByStatus current })

/-- Model of `applyStatusChange` (the body of the lock-wrapped call): ensure,
load, snapshot, locate, move unless the status already matches, then commit
or roll back on the audit gate. -/
def applyStatusChange (d : Disk) (id : String) (toStatus : MemoryStatus) (today : String) :
    Disk × Except OpError ChangeResult :=
  let dN := ensureStatusBuckets d
  let current0 := loadStatusBuckets dN
  let previous := current0
  match findItemStatus current0 id with
  | none => (dN, .error (.notFound id))
  | some located =>
    let current :=
      if located.status ≠ toStatus then
        pushBucket (eraseAt current0 located.status located.index) toStatus
          { located.item with status := toStatus, updated := some today }
      else current0
    finishStatusChange dN previous current located toStatus id today

/-- Model of `removeItemById` (the inner helper of `applyConflictMerge`). -/
def removeItemById (b : StatusBuckets) (id : String) :
    Except OpError (MemoryItem × StatusBuckets) :=
  match findItemStatus b id with
  | none => .error (.removeNotFound id)
  | some located =>
    match (bucketList b located.status).get? located.index with
    | none => .error (.removeFailed id)
    | some removed => .ok (removed, eraseAt b located.status located.index)

/-- The mutation segment of `applyConflictMerge`: remove the kept and the
other item, rebuild the kept one as the active merged item and the other one
as deprecated, push both. -/
def mergeMutation (b : StatusBuckets) (keep other : Located) (pairId : String)
    (mergedValue : MemoryValue) (today : String) :
    Except OpError (StatusBuckets × MemoryItem × MemoryItem) :=
  match removeItemById b keep.item.id with
  | .error e => .error e
  | .ok (keepOriginal, b1) =>
    match removeItemById b1 other.item.id with
    | .error e => .error e
    | .ok (otherOriginal, b2) =>
      let merged : MemoryItem :=
        { keepOriginal with
          status := .active, value := mergedValue, updated := some today
          next := some ("Merged conflict " ++ pairId ++ "; resolved by keeping " ++
            keep.item.id ++ ".") }
      let deprecatedOther : MemoryItem :=
        { otherOriginal with
          status := .deprecated, updated := some today
          next := some ("Deprecated after conflict merge " ++ pairId ++ " into " ++
            merged.id ++ ".") }
      .ok (pushBucket (pushBucket b2 .active merged) .deprecated deprecatedOther,
        merged, deprecatedOther)

/-- Result record of `applyConflictMerge`. -/
structure MergeResult where
  mergedId : String
  deprecatedId : String
  counts : StatusCounts
  pairId : String
deriving DecidableEq

/-- The commit tail of `applyConflictMerge`: the shared commit-or-rollback
block, then the result assembled from the merged pair. -/
def finishConflictMerge (dN : Disk) (previous current : StatusBuckets)
    (merged deprecatedOther : MemoryItem) (pairId : String) (today : String) :
    Disk × Except OpError MergeResult :=
  let commit := commitOrRollback dN previous current today
  if commit.2 = false then
    (commit.1, .error .severeAudit)
  else
    (commit.1, .ok
      { mergedId := merged.id, deprecatedId := deprecatedOther.id
        counts := countsByStatus current, pairId := pairId })

/-- Model of `applyConflictMerge` (the body of the lock-wrapped call):
ensure, load, snapshot, the four precondition checks in source order, the
mutation, then commit or roll back on the audit gate. -/
def applyConflictMerge (d : Disk) (leftId rightId : String) (mergedValue : MemoryValue)
    (keepId? : Option String) (today : String) : Disk × Except OpError MergeResult :=
  let dN := ensureStatusBuckets d
  let current0 := loadStatusBuckets dN
  let previous := current0
  match findItemStatus current0 leftId, findItemStatus current0 rightId with
  | some leftLoc, some rightLoc =>
    if leftId = rightId then (dN, .error .sameIds)
    else if isUnresolvedConflictPair leftLoc.item rightLoc.item = false then
      (dN, .error .notConflictPair)
    else
      let keepId := keepId?.getD leftId
      if keepId ≠ leftId ∧ keepId ≠ rightId then (dN, .error (.invalidKeep keepId))
      else
        let keep := if keepId = leftId then leftLoc else rightLoc
        let other := if keepId = leftId then rightLoc else leftLoc
        let pairId := conflictPairId leftId rightId
        match mergeMutation current0 keep other pairId mergedValue today with
        | .error e => (dN, .error e)
        | .ok (current, merged, deprecatedOther) =>
          finishConflictMerge dN previous current merged deprecatedOther pairId today
  | _, _ => (dN, .error (.notFound (leftId ++ ", " ++ rightId)))

/-- Model of `initializeStatusStore` (the `init()` operation): ensure, load,
save, rebuild the canonical file, render the runtime projection, then reload
for the counts. -/
def initStatusStore (d : Disk) : Disk × StatusCounts :=
  let dN := ensureStatusBuckets d
  let b := loadStatusBuckets dN
  let d1 := saveStatusBuckets dN b
  let d2 := rebuildUnifiedMemory d1 b
  let d3 := renderRuntimeActiveMemory d2 b
  let b2 := loadStatusBuckets d3
  (d3, countsByStatus b2)

/-- C9: bucket membership is authoritative over the stored status field.
Loading overwrites every loaded item's status with its bucket's status, so
each loaded item's status equals its bucket (a mismatching stored status is
silently ignored), and the following save writes only items whose status
equals their bucket file. -/
theorem C9_load_overwrites_status (d : Disk) :
    ((loadStatusBuckets d).active =
        (d.activeFile.getD []).map (fun item => { item with status := .active }) ∧
      (loadStatusBuckets d).pending =
        (d.pendingFile.getD []).map (fun item => { item with status := .pending }) ∧
      (loadStatusBuckets d).deprecated =
        (d.deprecatedFile.getD []).map (fun item => { item with status := .deprecated })) ∧
    (∀ st : MemoryStatus, ∀ item ∈ bucketList (loadStatusBuckets d) st, item.status = st) ∧
    (∀ st : MemoryStatus,
      ∀ item ∈ (bucketFile (saveStatusBuckets d (loadStatusBuckets d)) st).getD [],
        item.status = st) := by
  refine ⟨⟨rfl, rfl, rfl⟩, ?_, ?_⟩
  · intro st item h
    cases st <;> simp only [bucketList, loadStatusBuckets, List.mem_map] at h <;>
      obtain ⟨x, -, rfl⟩ := h <;> rfl
  · intro st item h
    cases st <;>
      simp only [bucketFile, saveStatusBuckets, Option.getD_some, mem_sortItems,
        loadStatusBuckets, List.mem_map] at h <;>
      obtain ⟨x, -, rfl⟩ := h <;> rfl

theorem map_setStatus_id {l : List MemoryItem} {st : MemoryStatus}
    (h : ∀ item ∈ l, item.status = st) :
    l.map (fun item => { item with status := st }) = l := by
  induction l with
  | nil => rfl
  | cons x xs ih =>
    have hx : x.status = st := h x (by simp)
    have hxeq : ({ x with status := st } : MemoryItem) = x := by
      cases x
      subst hx
      rfl
    simp only [List.map_cons, hxeq, List.cons.injEq, true_and]
    exact ih (fun item hm => h item (by simp [hm]))

theorem load_bucket_status (d : Disk) (st : MemoryStatus) :
    ∀ item ∈ bucketList (loadStatusBuckets d) st, item.status = st := by
  intro item h
  cases st <;> simp only [bucketList, loadStatusBuckets, List.mem_map] at h <;>
    obtain ⟨x, -, rfl⟩ := h <;> rfl

theorem load_of_sorted_status {d : Disk} {lA lP lD : List MemoryItem}
    (hA : d.activeFile = some lA) (hP : d.pendingFile = some lP)
    (hD : d.deprecatedFile = some lD)
    (hsA : ∀ item ∈ lA, item.status = .active)
    (hsP : ∀ item ∈ lP, item.status = .pending)
    (hsD : ∀ item ∈ lD, item.status = .deprecated) :
    loadStatusBuckets d = { active := lA, pending := lP, deprecated := lD } := by
  unfold loadStatusBuckets
  rw [hA, hP, hD]
  simp only [Option.getD_some]
  rw [map_setStatus_id hsA, map_setStatus_id hsP, map_setStatus_id hsD]

theorem initStatusStore_files (d : Disk) :
    (initStatusStore d).1.activeFile = some (sortItems (loadedBuckets d).active) ∧
    (initStatusStore d).1.pendingFile = some (sortItems (loadedBuckets d).pending) ∧
    (initStatusStore d).1.deprecatedFile = some (sortItems (loadedBuckets d).deprecated) := by
  refine ⟨rfl, rfl, rfl⟩

theorem initStatusStore_counts (d : Disk) :
    (initStatusStore d).2 = countsByStatus (loadedBuckets d) := by
  simp [initStatusStore, loadedBuckets, countsByStatus, loadStatusBuckets,
    saveStatusBuckets, rebuildUnifiedMemory, renderRuntimeActiveMemory, sortItems_length]

theorem loadedBuckets_after_init (d : Disk) :
    loadedBuckets (initStatusStore d).1 =
      { active := sortItems (loadedBuckets d).active
        pending := sortItems (loadedBuckets d).pending
        deprecated := sortItems (loadedBuckets d).deprecated } := by
  obtain ⟨hA1, hP1, hD1⟩ := initStatusStore_files d
  have hsA : ∀ item ∈ sortItems (loadedBuckets d).active, item.status = .active :=
    fun item h => load_bucket_status _ .active item (mem_sortItems.mp h)
  have hsP : ∀ item ∈ sortItems (loadedBuckets d).pending, item.status = .pending :=
    fun item h => load_bucket_status _ .pending item (mem_sortItems.mp h)
  have hsD : ∀ item ∈ sortItems (loadedBuckets d).deprecated, item.status = .deprecated :=
    fun item h => load_bucket_status _ .deprecated item (mem_sortItems.mp h)
  have hens : ensureStatusBuckets (initStatusStore d).1 =
      saveStatusBuckets (initStatusStore d).1 (loadStatusBuckets (initStatusStore d).1) := by
    unfold ensureStatusBuckets
    rw [hA1]
    simp
  have hload1 : loadStatusBuckets (initStatusStore d).1 =
      { active := sortItems (loadedBuckets d).active
        pending := sortItems (loadedBuckets d).pending
        deprecated := sortItems (loadedBuckets d).deprecated } :=
    load_of_sorted_status hA1 hP1 hD1 hsA hsP hsD
  unfold loadedBuckets
  rw [hens, hload1]
  refine load_of_sorted_status ?_ ?_ ?_ hsA hsP hsD <;>
    simp [saveStatusBuckets, hload1, sortItems_idem, loadedBuckets]

/-- C8: init is idempotent - a second init with no intervening change leaves
all three bucket files byte-identical (equal parsed content, hence equal
serialized bytes) and returns identical status counts. -/
theorem C8_init_idempotent (d : Disk) :
    (initStatusStore (initStatusStore d).1).1.activeFile =
        (initStatusStore d).1.activeFile ∧
    (initStatusStore (initStatusStore d).1).1.pendingFile =
        (initStatusStore d).1.pendingFile ∧
    (initStatusStore (initStatusStore d).1).1.deprecatedFile =
        (initStatusStore d).1.deprecatedFile ∧
    (initStatusStore (initStatusStore d).1).2 = (initStatusStore d).2 := by
  obtain ⟨hA1, hP1, hD1⟩ := initStatusStore_files d
  obtain ⟨hA2, hP2, hD2⟩ := initStatusStore_files (initStatusStore d).1
  have hrl := loadedBuckets_after_init d
  refine ⟨?_, ?_, ?_, ?_⟩
  · rw [hA2, hrl, hA1]
    simp [sortItems_idem]
  · rw [hP2, hrl, hP1]
    simp [sortItems_idem]
  · rw [hD2, hrl, hD1]
    simp [sortItems_idem]
  · rw [initStatusStore_counts, initStatusStore_counts, hrl]
    simp [countsByStatus, sortItems_length]

theorem auditCanonical_rebuild (dN : Disk) (cur : StatusBuckets) (today : String) :
    auditCanonical (rebuildUnifiedMemory (saveStatusBuckets dN cur) cur) today =
      runAudit (flattenBuckets cur) [] today := by
  simp [auditCanonical, rebuildUnifiedMemory, saveStatusBuckets]

theorem commitOrRollback_eq (dN : Disk) (previous current : StatusBuckets) (today : String) :
    commitOrRollback dN previous current today =
      if auditExitCode (runAudit (flattenBuckets current) [] today) = 2 then
        (renderRuntimeActiveMemory
          (rebuildUnifiedMemory
            (saveStatusBuckets (rebuildUnifiedMemory (saveStatusBuckets dN current) current)
              previous)
            previous)
          previous, false)
      else
        (renderRuntimeActiveMemory
          (rebuildUnifiedMemory (saveStatusBuckets dN current) current) current, true) := by
  unfold commitOrRollback
  simp only [auditCanonical_rebuild]

theorem bucketFile_commit_disk (dX : Disk) (b : StatusBuckets) (st : MemoryStatus) :
    bucketFile
      (renderRuntimeActiveMemory (rebuildUnifiedMemory (saveStatusBuckets dX b) b) b) st =
      some (sortItems (bucketList b st)) := by
  cases st <;> rfl

/-- C6: a changeStatus call whose target status equals the located item's
current status is a no-op on the item set, provided (the amendment) the
post-save audit verdict is not severe: the call succeeds, no item moves
between buckets (each bucket file holds exactly the loaded items of that
bucket, merely re-sorted), the located item is returned unmodified - in
particular its updated field keeps its prior value - and the returned from
equals the returned to. -/
theorem C6_same_status_noop_amended (d : Disk) (id : String) (st0 : MemoryStatus)
    (today : String) (located : Located)
    (hfind : findItemStatus (loadedBuckets d) id = some located)
    (hst : located.status = st0)
    (haudit : auditExitCode (runAudit (flattenBuckets (loadedBuckets d)) [] today) ≠ 2) :
    (applyStatusChange d id st0 today).2 =
      .ok { fromStatus := st0, toStatus := st0, item := located.item
            counts := countsByStatus (loadedBuckets d) } ∧
    (∀ st : MemoryStatus, ∀ item : MemoryItem,
      item ∈ (bucketFile (applyStatusChange d id st0 today).1 st).getD [] ↔
        item ∈ bucketList (loadedBuckets d) st) := by
  have hfind' : findItemStatus (loadStatusBuckets (ensureStatusBuckets d)) id =
      some located := hfind
  have haudit' : auditExitCode
      (runAudit (flattenBuckets (loadStatusBuckets (ensureStatusBuckets d))) [] today) ≠ 2 :=
    haudit
  have happ : applyStatusChange d id st0 today =
      ((renderRuntimeActiveMemory
        (rebuildUnifiedMemory
          (saveStatusBuckets (ensureStatusBuckets d) (loadedBuckets d)) (loadedBuckets d))
        (loadedBuckets d)),
       .ok { fromStatus := st0, toStatus := st0, item := located.item
             counts := countsByStatus (loadedBuckets d) }) := by
    unfold applyStatusChange
    simp only [hfind']
    rw [if_neg (show ¬(located.status ≠ st0) by simp [hst])]
    unfold finishStatusChange
    rw [commitOrRollback_eq, if_neg haudit']
    simp only [Bool.true_eq_false, if_false, hfind']
    rw [hst]
    rfl
  constructor
  · rw [happ]
  · intro st item
    rw [happ]
    simp only [bucketFile_commit_disk, Option.getD_some, mem_sortItems]

/-! Atomic rollback (claim C1).  `runMutation` packages the two mutating
calls; `BucketFilesNormalized` says the three bucket files are already in the
form the store itself writes (load then save reproduces them byte for
byte). -/

/-- One mutating call of the store. -/
inductive MutationCall
  | statusChange (id : String) (toStatus : MemoryStatus)
  | conflictMerge (leftId rightId : String) (mergedValue : MemoryValue)
      (keepId? : Option String)
deriving DecidableEq

/-- The mutating call dispatched, its result collapsed to the error. -/
def runMutation (d : Disk) (call : MutationCall) (today : String) :
    Disk × Except OpError Unit :=
  match call with
  | .statusChange id toStatus =>
    let r := applyStatusChange d id toStatus today
    (r.1, r.2.map (fun _ => ()))
  | .conflictMerge leftId rightId mergedValue keepId? =>
    let r := applyConflictMerge d leftId rightId mergedValue keepId? today
    (r.1, r.2.map (fun _ => ()))

/-- The bucket files are exactly what the store itself would write: loading
and resaving them changes nothing. -/
def BucketFilesNormalized (d : Disk) : Prop :=
  (saveStatusBuckets d (loadStatusBuckets d)).activeFile = d.activeFile ∧
  (saveStatusBuckets d (loadStatusBuckets d)).pendingFile = d.pendingFile ∧
  (saveStatusBuckets d (loadStatusBuckets d)).deprecatedFile = d.deprecatedFile

instance (d : Disk) : Decidable (BucketFilesNormalized d) := by
  unfold BucketFilesNormalized; infer_instance

theorem ensure_eq_self_of_normalized {d : Disk} (hN : BucketFilesNormalized d) :
    ensureStatusBuckets d = d := by
  obtain ⟨h1, h2, h3⟩ := hN
  have hs : d.activeFile.isSome := by
    rw [← h1]; rfl
  unfold ensureStatusBuckets
  rw [if_pos (by simp [hs])]
  cases d
  simp only [saveStatusBuckets] at h1 h2 h3 ⊢
  rw [h1, h2, h3]

theorem loadedBuckets_of_normalized {d : Disk} (hN : BucketFilesNormalized d) :
    loadedBuckets d = loadStatusBuckets d := by
  rw [loadedBuckets, ensure_eq_self_of_normalized hN]

theorem rollback_bucket_files {d : Disk} (hN : BucketFilesNormalized d) (dX : Disk)
    (st : MemoryStatus) :
    bucketFile
      (renderRuntimeActiveMemory
        (rebuildUnifiedMemory (saveStatusBuckets dX (loadStatusBuckets d))
          (loadStatusBuckets d))
        (loadStatusBuckets d)) st = bucketFile d st := by
  rw [bucketFile_commit_disk]
  cases st
  · exact hN.1
  · exact hN.2.1
  · exact hN.2.2

theorem finishStatusChange_severe (dN : Disk) (previous current : StatusBuckets)
    (located : Located) (toStatus : MemoryStatus) (id today : String)
    (hres : (finishStatusChange dN previous current located toStatus id today).2 =
      Except.error .severeAudit) :
    ∀ st, bucketFile (finishStatusChange dN previous current located toStatus id today).1 st =
      some (sortItems (bucketList previous st)) := by
  intro st
  unfold finishStatusChange at hres ⊢
  rw [commitOrRollback_eq] at hres ⊢
  by_cases hexit : auditExitCode (runAudit (flattenBuckets current) [] today) = 2
  · rw [if_pos hexit]
    simp only [if_pos rfl]
    exact bucketFile_commit_disk _ _ st
  · rw [if_neg hexit] at hres
    simp only [Bool.true_eq_false, if_false] at hres
    cases hfu : findItemStatus current id <;> simp [hfu] at hres

theorem finishConflictMerge_severe (dN : Disk) (previous current : StatusBuckets)
    (merged deprecatedOther : MemoryItem) (pairId today : String)
    (hres : (finishConflictMerge dN previous current merged deprecatedOther pairId today).2 =
      Except.error .severeAudit) :
    ∀ st,
      bucketFile (finishConflictMerge dN previous current merged deprecatedOther pairId today).1
        st = some (sortItems (bucketList previous st)) := by
  intro st
  unfold finishConflictMerge at hres ⊢
  rw [commitOrRollback_eq] at hres ⊢
  by_cases hexit : auditExitCode (runAudit (flattenBuckets current) [] today) = 2
  · rw [if_pos hexit]
    simp only [if_pos rfl]
    exact bucketFile_commit_disk _ _ st
  · rw [if_neg hexit] at hres
    simp at hres

theorem removeItemById_error_ne {b : StatusBuckets} {id : String} {e : OpError}
    (h : removeItemById b id = .error e) : e ≠ .severeAudit := by
  unfold removeItemById at h
  cases hf : findItemStatus b id with
  | none =>
    simp only [hf] at h
    injection h with he
    rw [← he]
    simp
  | some located =>
    simp only [hf] at h
    cases hg : (bucketList b located.status).get? located.index with
    | none =>
      simp only [hg] at h
      injection h with he
      rw [← he]
      simp
    | some removed =>
      simp only [hg] at h
      exact absurd h (by simp)

theorem mergeMutation_error_ne {b : StatusBuckets} {keep other : Located}
    {pairId : String} {mv : MemoryValue} {today : String} {e : OpError}
    (h : mergeMutation b keep other pairId mv today = .error e) : e ≠ .severeAudit := by
  unfold mergeMutation at h
  cases h1 : removeItemById b keep.item.id with
  | error e1 =>
    simp only [h1] at h
    injection h with he
    rw [← he]
    exact removeItemById_error_ne h1
  | ok p1 =>
    obtain ⟨q1, q2⟩ := p1
    simp only [h1] at h
    cases h2 : removeItemById q2 other.item.id with
    | error e2 =>
      simp only [h2] at h
      injection h with he
      rw [← he]
      exact removeItemById_error_ne h2
    | ok p2 =>
      obtain ⟨r1, r2⟩ := p2
      simp only [h2] at h
      exact absurd h (by simp)

theorem applyStatusChange_severe_files (d : Disk) (id : String) (st0 : MemoryStatus)
    (today : String)
    (hres : (applyStatusChange d id st0 today).2 = Except.error .severeAudit) :
    ∀ st, bucketFile (applyStatusChange d id st0 today).1 st =
      some (sortItems (bucketList (loadedBuckets d) st)) := by
  intro st
  unfold applyStatusChange at hres ⊢
  cases hf : findItemStatus (loadStatusBuckets (ensureStatusBuckets d)) id with
  | none => simp [hf] at hres
  | some located =>
    simp only [hf] at hres ⊢
    exact finishStatusChange_severe _ _ _ _ _ _ _ hres st

theorem applyConflictMerge_severe_files (d : Disk) (leftId rightId : String)
    (mv : MemoryValue) (keepId? : Option String) (today : String)
    (hres : (applyConflictMerge d leftId rightId mv keepId? today).2 =
      Except.error .severeAudit) :
    ∀ st, bucketFile (applyConflictMerge d leftId rightId mv keepId? today).1 st =
      some (sortItems (bucketList (loadedBuckets d) st)) := by
  intro st
  unfold applyConflictMerge at hres ⊢
  cases hfL : findItemStatus (loadStatusBuckets (ensureStatusBuckets d)) leftId with
  | none =>
    cases hfR : findItemStatus (loadStatusBuckets (ensureStatusBuckets d)) rightId <;>
      simp [hfL, hfR] at hres
  | some leftLoc =>
    cases hfR : findItemStatus (loadStatusBuckets (ensureStatusBuckets d)) rightId with
    | none => simp [hfL, hfR] at hres
    | some rightLoc =>
      simp only [hfL, hfR] at hres ⊢
      by_cases hid : leftId = rightId
      · rw [if_pos hid] at hres
        simp at hres
      · rw [if_neg hid] at hres ⊢
        by_cases hconf : isUnresolvedConflictPair leftLoc.item rightLoc.item = false
        · rw [if_pos hconf] at hres
          simp at hres
        · rw [if_neg hconf] at hres ⊢
          by_cases hkeep : keepId?.getD leftId ≠ leftId ∧ keepId?.getD leftId ≠ rightId
          · rw [if_pos hkeep] at hres
            simp at hres
          · rw [if_neg hkeep] at hres ⊢
            revert hres
            cases hmm : mergeMutation (loadStatusBuckets (ensureStatusBuckets d))
                (if keepId?.getD leftId = leftId then leftLoc else rightLoc)
                (if keepId?.getD leftId = leftId then rightLoc else leftLoc)
                (conflictPairId leftId rightId) mv today with
            | error e =>
              intro hres
              exact absurd (Except.error.inj hres) (mergeMutation_error_ne hmm)
            | ok triple =>
              intro hres
              obtain ⟨current, merged, dep⟩ := triple
              exact finishConflictMerge_severe _ _ _ _ _ _ _ hres st

/-- C1: when a mutating call (changeStatus or mergeConflict) trips the severe
post-mutation audit verdict, the call fails and the three bucket files are
restored - byte-identical to their pre-call contents provided (the amendment)
the pre-call bucket files were normalized, i.e. already in the store-written
form that a load-resave reproduces; a non-normalized pre-call file is instead
left in its normalized form by the failed call. -/
theorem C1_rollback_amended (d : Disk) (call : MutationCall) (today : String) (d' : Disk)
    (hN : BucketFilesNormalized d)
    (hrun : runMutation d call today = (d', Except.error .severeAudit)) :
    d'.activeFile = d.activeFile ∧ d'.pendingFile = d.pendingFile ∧
      d'.deprecatedFile = d.deprecatedFile := by
  have key : ∀ st, bucketFile d' st = bucketFile d st := by
    intro st
    cases call with
    | statusChange id st0 =>
      unfold runMutation at hrun
      have h1 : (applyStatusChange d id st0 today).1 = d' := congrArg Prod.fst hrun
      have h2 : (applyStatusChange d id st0 today).2.map (fun _ => ()) =
          Except.error .severeAudit := congrArg Prod.snd hrun
      have h2' : (applyStatusChange d id st0 today).2 = Except.error .severeAudit := by
        cases hx : (applyStatusChange d id st0 today).2 with
        | error e =>
          rw [hx] at h2
          simp only [Except.map] at h2
          injection h2 with he
          rw [he]
        | ok v =>
          rw [hx] at h2
          simp [Except.map] at h2
      have hfiles := applyStatusChange_severe_files d id st0 today h2' st
      rw [← h1, hfiles, loadedBuckets_of_normalized hN]
      cases st
      · exact hN.1
      · exact hN.2.1
      · exact hN.2.2
    | conflictMerge leftId rightId mv keepId? =>
      unfold runMutation at hrun
      have h1 : (applyConflictMerge d leftId rightId mv keepId? today).1 = d' :=
        congrArg Prod.fst hrun
      have h2 : (applyConflictMerge d leftId rightId mv keepId? today).2.map (fun _ => ()) =
          Except.error .severeAudit := congrArg Prod.snd hrun
      have h2' : (applyConflictMerge d leftId rightId mv keepId? today).2 =
          Except.error .severeAudit := by
        cases hx : (applyConflictMerge d leftId rightId mv keepId? today).2 with
        | error e =>
          rw [hx] at h2
          simp only [Except.map] at h2
          injection h2 with he
          rw [he]
        | ok v =>
          rw [hx] at h2
          simp [Except.map] at h2
      have hfiles := applyConflictMerge_severe_files d leftId rightId mv keepId? today h2' st
      rw [← h1, hfiles, loadedBuckets_of_normalized hN]
      cases st
      · exact hN.1
      · exact hN.2.1
      · exact hN.2.2
  exact ⟨key .active, key .pending, key .deprecated⟩

/-- Item constructor shared by the concrete test states. -/
def mkItem (id topic key v : String) (st : MemoryStatus) (eff exp : String) : MemoryItem :=
  { id := id, topic := topic, key := key, value := .str v, status := st
    source := "docs/memory.md", effective_from := eff, expires := exp
    scope := { env := .all, service := none, region := none }
    updated := none, confidence := none, next := none }

/-- First active item of the non-normalized counterexample store. -/
def c1ItemA : MemoryItem :=
  mkItem "MEM-2024-01-001" "alpha" "mode" "v1" .active "2024-01-01" "2099-01-01"

/-- Second active item of the non-normalized counterexample store. -/
def c1ItemB : MemoryItem :=
  mkItem "MEM-2024-01-002" "beta" "mode" "v2" .active "2024-01-01" "2099-01-01"

/-- A pending item whose id duplicates `c1ItemA`, making every audit severe. -/
def c1ItemDup : MemoryItem :=
  mkItem "MEM-2024-01-001" "gamma" "mode" "v3" .pending "2024-01-01" "2099-01-01"

/-- A store whose active bucket file is not normalized (out of sort order) and
whose item set carries a duplicate id. -/
def c1CexDisk : Disk :=
  { activeFile := some [c1ItemB, c1ItemA], pendingFile := some [c1ItemDup]
    deprecatedFile := some [], canonicalFile := some [], runtimeFile := [] }

/-- C1 counterexample: a changeStatus call on a store with a duplicate id hits
the severe post-mutation verdict and fails, but the active bucket file is not
byte-identical to its pre-call contents - the failed call leaves it in
normalized (re-sorted) form. -/
theorem C1_rollback_counterexample :
    (runMutation c1CexDisk (.statusChange "MEM-2024-01-001" .active) "2024-06-01").2 =
      Except.error .severeAudit ∧
    (runMutation c1CexDisk
        (.statusChange "MEM-2024-01-001" .active) "2024-06-01").1.activeFile ≠
      c1CexDisk.activeFile := by
  exact ⟨by decide, by decide⟩

/-- Active half of a normalized two-item store. -/
def c1WItemA : MemoryItem :=
  mkItem "MEM-2024-01-001" "deploy" "mode" "canary" .active "2024-01-01" "2099-01-01"

/-- Pending half of a normalized two-item store, conflicting with the active
half once activated. -/
def c1WItemB : MemoryItem :=
  mkItem "MEM-2024-01-002" "deploy" "mode" "blue" .pending "2024-01-01" "2099-01-01"

/-- A normalized store on which activating the pending item trips the
conflict audit. -/
def c1WDisk : Disk :=
  { activeFile := some [c1WItemA], pendingFile := some [c1WItemB]
    deprecatedFile := some [], canonicalFile := some [], runtimeFile := [] }

theorem C1_rollback_witness :
    (runMutation c1WDisk (.statusChange "MEM-2024-01-002" .active) "2024-06-01").1.activeFile =
        c1WDisk.activeFile ∧
    (runMutation c1WDisk (.statusChange "MEM-2024-01-002" .active) "2024-06-01").1.pendingFile =
        c1WDisk.pendingFile ∧
    (runMutation c1WDisk
        (.statusChange "MEM-2024-01-002" .active) "2024-06-01").1.deprecatedFile =
      c1WDisk.deprecatedFile :=
  C1_rollback_amended c1WDisk (.statusChange "MEM-2024-01-002" .active) "2024-06-01"
    (runMutation c1WDisk (.statusChange "MEM-2024-01-002" .active) "2024-06-01").1
    (by decide) (by decide)

/-- C6 counterexample: a changeStatus call whose target equals the current
status and whose id exists, on a store whose audit is severe, does not
succeed - it raises the severe-audit error. -/
theorem C6_same_status_noop_counterexample :
    (∃ loc : Located, findItemStatus (loadedBuckets c1CexDisk) "MEM-2024-01-001" = some loc ∧
      loc.status = .active) ∧
    (applyStatusChange c1CexDisk "MEM-2024-01-001" .active "2024-06-01").2 =
      Except.error .severeAudit := by
  refine ⟨⟨{ status := .active, index := 0, item := c1ItemA }, by decide, rfl⟩, by decide⟩

/-- A clean one-item store for the no-op witness. -/
def c6WDisk : Disk :=
  { activeFile := some [c1WItemA], pendingFile := some []
    deprecatedFile := some [], canonicalFile := some [], runtimeFile := [] }

theorem C6_same_status_noop_witness :
    (applyStatusChange c6WDisk "MEM-2024-01-001" .active "2024-06-01").2 =
      .ok { fromStatus := .active, toStatus := .active, item := c1WItemA
            counts := { active := 1, pending := 0, deprecated := 0 } } ∧
    (∀ st : MemoryStatus, ∀ item : MemoryItem,
      item ∈
          (bucketFile (applyStatusChange c6WDisk "MEM-2024-01-001" .active "2024-06-01").1
            st).getD [] ↔
        item ∈ bucketList (loadedBuckets c6WDisk) st) :=
  C6_same_status_noop_amended c6WDisk "MEM-2024-01-001" .active "2024-06-01"
    { status := .active, index := 0, item := c1WItemA } (by decide) rfl (by decide)

/-! Lemmas about `findIdxItem`, `findItemStatus` and removal, feeding the
conflict-merge claim. -/

theorem findIdxItem_some {l : List MemoryItem} {id : String} :
    ∀ {i : Nat} {it : MemoryItem}, findIdxItem l id = some (i, it) →
      it.id = id ∧ l.get? i = some it := by
  induction l with
  | nil => intro i it h; simp [findIdxItem] at h
  | cons x xs ih =>
    intro i it h
    unfold findIdxItem at h
    by_cases hx : x.id = id
    · rw [if_pos hx] at h
      injection h with hp
      injection hp with ha hb
      subst ha
      subst hb
      exact ⟨hx, rfl⟩
    · rw [if_neg hx] at h
      cases hf : findIdxItem xs id with
      | none => rw [hf] at h; simp at h
      | some p =>
        obtain ⟨q1, q2⟩ := p
        rw [hf] at h
        simp only [Option.map] at h
        injection h with hp
        injection hp with ha hb
        subst ha
        subst hb
        obtain ⟨hid, hget⟩ := ih hf
        exact ⟨hid, by simpa using hget⟩

theorem findIdxItem_eraseIdx_none {l : List MemoryItem} {id : String}
    (h : findIdxItem l id = none) : ∀ k : Nat, findIdxItem (l.eraseIdx k) id = none := by
  induction l with
  | nil => intro k; rfl
  | cons x xs ih =>
    intro k
    unfold findIdxItem at h
    by_cases hx : x.id = id
    · rw [if_pos hx] at h; exact absurd h (by simp)
    · rw [if_neg hx] at h
      have hxs : findIdxItem xs id = none := by
        cases hf : findIdxItem xs id with
        | none => rfl
        | some p => rw [hf] at h; simp at h
      cases k with
      | zero => simpa [List.eraseIdx] using hxs
      | succ k' =>
        simp only [List.eraseIdx_cons_succ]
        unfold findIdxItem
        rw [if_neg hx, ih hxs k']
        rfl

theorem findIdxItem_eraseIdx_of_ne {l : List MemoryItem} {id1 id2 : String}
    (hne : id1 ≠ id2) :
    ∀ {i1 i2 : Nat} {it1 it2 : MemoryItem},
      findIdxItem l id1 = some (i1, it1) → findIdxItem l id2 = some (i2, it2) →
      ∃ j, findIdxItem (l.eraseIdx i1) id2 = some (j, it2) := by
  induction l with
  | nil => intro i1 i2 it1 it2 h1 _; simp [findIdxItem] at h1
  | cons x xs ih =>
    intro i1 i2 it1 it2 h1 h2
    unfold findIdxItem at h1 h2
    by_cases hx1 : x.id = id1
    · rw [if_pos hx1] at h1
      injection h1 with hp1
      injection hp1 with ha hb
      subst ha
      rw [if_neg (by rw [hx1]; exact hne)] at h2
      cases hf : findIdxItem xs id2 with
      | none => rw [hf] at h2; simp at h2
      | some p =>
        obtain ⟨q1, q2⟩ := p
        rw [hf] at h2
        simp only [Option.map] at h2
        injection h2 with hp2
        injection hp2 with hc hd
        subst hd
        exact ⟨q1, by simpa [List.eraseIdx_cons_zero] using hf⟩
    · rw [if_neg hx1] at h1
      cases hf1 : findIdxItem xs id1 with
      | none => rw [hf1] at h1; simp at h1
      | some p1 =>
        obtain ⟨a1, b1⟩ := p1
        rw [hf1] at h1
        simp only [Option.map] at h1
        injection h1 with hp1
        injection hp1 with ha hb
        subst ha
        subst hb
        by_cases hx2 : x.id = id2
        · rw [if_pos hx2] at h2
          injection h2 with hp2
          injection hp2 with hc hd
          subst hd
          refine ⟨0, ?_⟩
          simp only [List.eraseIdx_cons_succ]
          unfold findIdxItem
          rw [if_pos hx2]
        · rw [if_neg hx2] at h2
          cases hf2 : findIdxItem xs id2 with
          | none => rw [hf2] at h2; simp at h2
          | some p2 =>
            obtain ⟨a2, b2⟩ := p2
            rw [hf2] at h2
            simp only [Option.map] at h2
            injection h2 with hp2
            injection hp2 with hc hd
            subst hd
            obtain ⟨j, hj⟩ := ih hf1 hf2
            refine ⟨j + 1, ?_⟩
            simp only [List.eraseIdx_cons_succ]
            unfold findIdxItem
            rw [if_neg hx2, hj]
            rfl

theorem findItemStatus_inv {b : StatusBuckets} {id : String} {loc : Located}
    (h : findItemStatus b id = some loc) :
    (loc.status = .active ∧ findIdxItem b.active id = some (loc.index, loc.item)) ∨
    (loc.status = .pending ∧ findIdxItem b.active id = none ∧
      findIdxItem b.pending id = some (loc.index, loc.item)) ∨
    (loc.status = .deprecated ∧ findIdxItem b.active id = none ∧
      findIdxItem b.pending id = none ∧
      findIdxItem b.deprecated id = some (loc.index, loc.item)) := by
  unfold findItemStatus at h
  cases hA : findIdxItem b.active id with
  | some p =>
    obtain ⟨i, it⟩ := p
    rw [hA] at h
    injection h with hl
    subst hl
    exact Or.inl ⟨rfl, rfl⟩
  | none =>
    rw [hA] at h
    cases hP : findIdxItem b.pending id with
    | some p =>
      obtain ⟨i, it⟩ := p
      rw [hP] at h
      injection h with hl
      subst hl
      exact Or.inr (Or.inl ⟨rfl, rfl, rfl⟩)
    | none =>
      rw [hP] at h
      cases hD : findIdxItem b.deprecated id with
      | some p =>
        obtain ⟨i, it⟩ := p
        rw [hD] at h
        injection h with hl
        subst hl
        exact Or.inr (Or.inr ⟨rfl, rfl, rfl, rfl⟩)
      | none => rw [hD] at h; exact absurd h (by simp)

theorem findItemStatus_found_bucket {b : StatusBuckets} {id : String} {loc : Located}
    (h : findItemStatus b id = some loc) :
    findIdxItem (bucketList b loc.status) id = some (loc.index, loc.item) := by
  rcases findItemStatus_inv h with ⟨hs, hf⟩ | ⟨hs, -, hf⟩ | ⟨hs, -, -, hf⟩ <;>
    rw [hs] <;> exact hf

theorem findItemStatus_id {b : StatusBuckets} {id : String} {loc : Located}
    (h : findItemStatus b id = some loc) : loc.item.id = id :=
  (findIdxItem_some (findItemStatus_found_bucket h)).1

theorem removeItemById_of_found {b : StatusBuckets} {id : String} {loc : Located}
    (h : findItemStatus b id = some loc) :
    removeItemById b id = .ok (loc.item, eraseAt b loc.status loc.index) := by
  unfold removeItemById
  simp only [h]
  rw [(findIdxItem_some (findItemStatus_found_bucket h)).2]

theorem findItemStatus_eraseAt_of_ne {b : StatusBuckets} {id1 id2 : String}
    {loc1 loc2 : Located} (h1 : findItemStatus b id1 = some loc1)
    (h2 : findItemStatus b id2 = some loc2) (hne : id1 ≠ id2) :
    ∃ loc2' : Located,
      findItemStatus (eraseAt b loc1.status loc1.index) id2 = some loc2' ∧
        loc2'.item = loc2.item := by
  rcases findItemStatus_inv h1 with ⟨hs1, hA1⟩ | ⟨hs1, hA1n, hP1⟩ | ⟨hs1, hA1n, hP1n, hD1⟩
  · rcases findItemStatus_inv h2 with ⟨hs2, hA2⟩ | ⟨hs2, hA2n, hP2⟩ | ⟨hs2, hA2n, hP2n, hD2⟩
    · rw [hs1]
      obtain ⟨j, hj⟩ := findIdxItem_eraseIdx_of_ne hne hA1 hA2
      exact ⟨⟨.active, j, loc2.item⟩, by simp [eraseAt, setBucket, bucketList, findItemStatus, hj], rfl⟩
    · rw [hs1]
      have hA' := findIdxItem_eraseIdx_none hA2n loc1.index
      exact ⟨⟨.pending, loc2.index, loc2.item⟩,
        by simp [eraseAt, setBucket, bucketList, findItemStatus, hA', hP2], rfl⟩
    · rw [hs1]
      have hA' := findIdxItem_eraseIdx_none hA2n loc1.index
      exact ⟨⟨.deprecated, loc2.index, loc2.item⟩,
        by simp [eraseAt, setBucket, bucketList, findItemStatus, hA', hP2n, hD2], rfl⟩
  · rcases findItemStatus_inv h2 with ⟨hs2, hA2⟩ | ⟨hs2, hA2n, hP2⟩ | ⟨hs2, hA2n, hP2n, hD2⟩
    · rw [hs1]
      exact ⟨⟨.active, loc2.index, loc2.item⟩,
        by simp [eraseAt, setBucket, bucketList, findItemStatus, hA2], rfl⟩
    · rw [hs1]
      obtain ⟨j, hj⟩ := findIdxItem_eraseIdx_of_ne hne hP1 hP2
      exact ⟨⟨.pending, j, loc2.item⟩,
        by simp [eraseAt, setBucket, bucketList, findItemStatus, hA2n, hj], rfl⟩
    · rw [hs1]
      have hP' := findIdxItem_eraseIdx_none hP2n loc1.index
      exact ⟨⟨.deprecated, loc2.index, loc2.item⟩,
        by simp [eraseAt, setBucket, bucketList, findItemStatus, hA2n, hP', hD2], rfl⟩
  · rcases findItemStatus_inv h2 with ⟨hs2, hA2⟩ | ⟨hs2, hA2n, hP2⟩ | ⟨hs2, hA2n, hP2n, hD2⟩
    · rw [hs1]
      exact ⟨⟨.active, loc2.index, loc2.item⟩,
        by simp [eraseAt, setBucket, bucketList, findItemStatus, hA2], rfl⟩
    · rw [hs1]
      exact ⟨⟨.pending, loc2.index, loc2.item⟩,
        by simp [eraseAt, setBucket, bucketList, findItemStatus, hA2n, hP2], rfl⟩
    · rw [hs1]
      obtain ⟨j, hj⟩ := findIdxItem_eraseIdx_of_ne hne hD1 hD2
      exact ⟨⟨.deprecated, j, loc2.item⟩,
        by simp [eraseAt, setBucket, bucketList, findItemStatus, hA2n, hP2n, hj], rfl⟩

theorem mergeMutation_ok {b : StatusBuckets} {keep other : Located}
    (pairId : String) (mv : MemoryValue) (today : String)
    (hk : findItemStatus b keep.item.id = some keep)
    (ho : findItemStatus b other.item.id = some other)
    (hne : keep.item.id ≠ other.item.id) :
    ∃ b2 : StatusBuckets,
      mergeMutation b keep other pairId mv today =
        .ok
          (pushBucket
            (pushBucket b2 .active
              { keep.item with
                status := .active, value := mv, updated := some today
                next := some ("Merged conflict " ++ pairId ++ "; resolved by keeping " ++
                  keep.item.id ++ ".") })
            .deprecated
            { other.item with
              status := .deprecated, updated := some today
              next := some ("Deprecated after conflict merge " ++ pairId ++ " into " ++
                keep.item.id ++ ".") },
          { keep.item with
            status := .active, value := mv, updated := some today
            next := some ("Merged conflict " ++ pairId ++ "; resolved by keeping " ++
              keep.item.id ++ ".") },
          { other.item with
            status := .deprecated, updated := some today
            next := some ("Deprecated after conflict merge " ++ pairId ++ " into " ++
              keep.item.id ++ ".") }) := by
  obtain ⟨loc2', hfind2, hitem2⟩ := findItemStatus_eraseAt_of_ne hk ho hne
  have h1 := removeItemById_of_found hk
  have h2 := removeItemById_of_found hfind2
  refine ⟨eraseAt (eraseAt b keep.status keep.index) loc2'.status loc2'.index, ?_⟩
  unfold mergeMutation
  rw [h1]
  simp only []
  rw [hitem2] at h2
  rw [h2]

theorem finishConflictMerge_not_severe {dN : Disk} {previous current : StatusBuckets}
    {merged deprecatedOther : MemoryItem} {pairId today : String}
    (h : (finishConflictMerge dN previous current merged deprecatedOther pairId today).2 ≠
      Except.error .severeAudit) :
    finishConflictMerge dN previous current merged deprecatedOther pairId today =
      (renderRuntimeActiveMemory (rebuildUnifiedMemory (saveStatusBuckets dN current) current)
        current,
       .ok { mergedId := merged.id, deprecatedId := deprecatedOther.id
             counts := countsByStatus current, pairId := pairId }) := by
  unfold finishConflictMerge at h ⊢
  rw [commitOrRollback_eq] at h ⊢
  by_cases hexit : auditExitCode (runAudit (flattenBuckets current) [] today) = 2
  · rw [if_pos hexit] at h
    simp at h
  · rw [if_neg hexit]
    simp

/-- C4: the precondition failures of mergeConflict each make the call fail,
and when every precondition holds - both ids present, the ids distinct, the
located pair an active+pending unresolved conflict, keepId (defaulting to
leftId) one of the two ids - and (the amendment) the post-merge audit verdict
is not severe, the call returns the merge record and the two rewritten items
land in the active and deprecated buckets: the kept item with value
mergedValue, status active, updated today and a next note naming the pair id,
the other item deprecated, updated today, with a next note back-referencing
the kept item.  The claim as stated omits the audit gate, which can still
fail the call after all preconditions hold. -/
theorem C4_merge_amended (d : Disk) (leftId rightId : String) (mv : MemoryValue)
    (keepId? : Option String) (today : String) :
    ((findItemStatus (loadedBuckets d) leftId = none ∨
        findItemStatus (loadedBuckets d) rightId = none) →
      ∃ e, (applyConflictMerge d leftId rightId mv keepId? today).2 = .error e) ∧
    (leftId = rightId →
      ∃ e, (applyConflictMerge d leftId rightId mv keepId? today).2 = .error e) ∧
    (∀ L R : Located, findItemStatus (loadedBuckets d) leftId = some L →
      findItemStatus (loadedBuckets d) rightId = some R →
      isUnresolvedConflictPair L.item R.item = false →
      ∃ e, (applyConflictMerge d leftId rightId mv keepId? today).2 = .error e) ∧
    (∀ L R : Located, ∀ k : String, findItemStatus (loadedBuckets d) leftId = some L →
      findItemStatus (loadedBuckets d) rightId = some R →
      keepId? = some k → k ≠ leftId → k ≠ rightId →
      ∃ e, (applyConflictMerge d leftId rightId mv keepId? today).2 = .error e) ∧
    (∀ L R : Located, findItemStatus (loadedBuckets d) leftId = some L →
      findItemStatus (loadedBuckets d) rightId = some R →
      leftId ≠ rightId →
      isUnresolvedConflictPair L.item R.item = true →
      (keepId?.getD leftId = leftId ∨ keepId?.getD leftId = rightId) →
      (applyConflictMerge d leftId rightId mv keepId? today).2 ≠
        Except.error .severeAudit →
      (∃ r : MergeResult,
        (applyConflictMerge d leftId rightId mv keepId? today).2 = .ok r ∧
        r.mergedId = keepId?.getD leftId ∧
        r.deprecatedId = (if keepId?.getD leftId = leftId then rightId else leftId) ∧
        r.pairId = conflictPairId leftId rightId) ∧
      { (if keepId?.getD leftId = leftId then L else R).item with
        status := MemoryStatus.active, value := mv, updated := some today
        next := some ("Merged conflict " ++ conflictPairId leftId rightId ++
          "; resolved by keeping " ++ (if keepId?.getD leftId = leftId then L else R).item.id
          ++ ".") } ∈
        (bucketFile (applyConflictMerge d leftId rightId mv keepId? today).1 .active).getD [] ∧
      { (if keepId?.getD leftId = leftId then R else L).item with
        status := MemoryStatus.deprecated, updated := some today
        next := some ("Deprecated after conflict merge " ++ conflictPairId leftId rightId ++
          " into " ++ (if keepId?.getD leftId = leftId then L else R).item.id ++ ".") } ∈
        (bucketFile (applyConflictMerge d leftId rightId mv keepId? today).1
          .deprecated).getD []) := by
  refine ⟨?_, ?_, ?_, ?_, ?_⟩
  · intro h
    unfold applyConflictMerge
    rcases h with hL | hR
    · simp only [show findItemStatus (loadStatusBuckets (ensureStatusBuckets d)) leftId =
        none from hL]
      exact ⟨_, rfl⟩
    · cases hL' : findItemStatus (loadStatusBuckets (ensureStatusBuckets d)) leftId with
      | none =>
        simp only [hL']
        exact ⟨_, rfl⟩
      | some L0 =>
        simp only [hL', show findItemStatus (loadStatusBuckets (ensureStatusBuckets d))
          rightId = none from hR]
        exact ⟨_, rfl⟩
  · intro heq
    subst heq
    unfold applyConflictMerge
    cases hL' : findItemStatus (loadStatusBuckets (ensureStatusBuckets d)) leftId with
    | none =>
      simp only [hL']
      exact ⟨_, rfl⟩
    | some L0 =>
      simp only [hL']
      exact ⟨.sameIds, by simp⟩
  · intro L R hfL hfR hconf
    unfold applyConflictMerge
    simp only [show findItemStatus (loadStatusBuckets (ensureStatusBuckets d)) leftId =
      some L from hfL,
      show findItemStatus (loadStatusBuckets (ensureStatusBuckets d)) rightId =
        some R from hfR]
    by_cases hid : leftId = rightId
    · rw [if_pos hid]
      exact ⟨_, rfl⟩
    · rw [if_neg hid, if_pos hconf]
      exact ⟨_, rfl⟩
  · intro L R k hfL hfR hk hkl hkr
    unfold applyConflictMerge
    simp only [show findItemStatus (loadStatusBuckets (ensureStatusBuckets d)) leftId =
      some L from hfL,
      show findItemStatus (loadStatusBuckets (ensureStatusBuckets d)) rightId =
        some R from hfR]
    by_cases hid : leftId = rightId
    · rw [if_pos hid]
      exact ⟨_, rfl⟩
    · rw [if_neg hid]
      by_cases hconf : isUnresolvedConflictPair L.item R.item = false
      · rw [if_pos hconf]
        exact ⟨_, rfl⟩
      · rw [if_neg hconf]
        rw [if_pos (show keepId?.getD leftId ≠ leftId ∧ keepId?.getD leftId ≠ rightId from by
          rw [hk]
          exact ⟨hkl, hkr⟩)]
        exact ⟨_, rfl⟩
  · intro L R hfL hfR hne hconf hkeep hsev
    have hfL' : findItemStatus (loadStatusBuckets (ensureStatusBuckets d)) leftId =
      some L := hfL
    have hfR' : findItemStatus (loadStatusBuckets (ensureStatusBuckets d)) rightId =
      some R := hfR
    have hLid : L.item.id = leftId := findItemStatus_id hfL'
    have hRid : R.item.id = rightId := findItemStatus_id hfR'
    have hkfind : findItemStatus (loadStatusBuckets (ensureStatusBuckets d))
        (if keepId?.getD leftId = leftId then L else R).item.id =
        some (if keepId?.getD leftId = leftId then L else R) := by
      by_cases hc : keepId?.getD leftId = leftId <;> simp [hc, hLid, hRid, hfL', hfR']
    have hofind : findItemStatus (loadStatusBuckets (ensureStatusBuckets d))
        (if keepId?.getD leftId = leftId then R else L).item.id =
        some (if keepId?.getD leftId = leftId then R else L) := by
      by_cases hc : keepId?.getD leftId = leftId <;> simp [hc, hLid, hRid, hfL', hfR']
    have hkone : (if keepId?.getD leftId = leftId then L else R).item.id ≠
        (if keepId?.getD leftId = leftId then R else L).item.id := by
      by_cases hc : keepId?.getD leftId = leftId
      · rw [if_pos hc, if_pos hc, hLid, hRid]
        exact hne
      · rw [if_neg hc, if_neg hc, hLid, hRid]
        exact fun h => hne h.symm
    obtain ⟨b2, hmm⟩ :=
      mergeMutation_ok (conflictPairId leftId rightId) mv today hkfind hofind hkone
    have happ : applyConflictMerge d leftId rightId mv keepId? today =
        finishConflictMerge (ensureStatusBuckets d)
          (loadStatusBuckets (ensureStatusBuckets d))
          (pushBucket
            (pushBucket b2 .active
              { (if keepId?.getD leftId = leftId then L else R).item with
                status := .active, value := mv, updated := some today
                next := some ("Merged conflict " ++ conflictPairId leftId rightId ++
                  "; resolved by keeping " ++
                  (if keepId?.getD leftId = leftId then L else R).item.id ++ ".") })
            .deprecated
            { (if keepId?.getD leftId = leftId then R else L).item with
              status := .deprecated, updated := some today
              next := some ("Deprecated after conflict merge " ++
                conflictPairId leftId rightId ++ " into " ++
                (if keepId?.getD leftId = leftId then L else R).item.id ++ ".") })
          { (if keepId?.getD leftId = leftId then L else R).item with
            status := .active, value := mv, updated := some today
            next := some ("Merged conflict " ++ conflictPairId leftId rightId ++
              "; resolved by keeping " ++
              (if keepId?.getD leftId = leftId then L else R).item.id ++ ".") }
          { (if keepId?.getD leftId = leftId then R else L).item with
            status := .deprecated, updated := some today
            next := some ("Deprecated after conflict merge " ++
              conflictPairId leftId rightId ++ " into " ++
              (if keepId?.getD leftId = leftId then L else R).item.id ++ ".") }
          (conflictPairId leftId rightId) today := by
      unfold applyConflictMerge
      simp only [hfL', hfR']
      rw [if_neg hne]
      rw [if_neg (show ¬ isUnresolvedConflictPair L.item R.item = false by simp [hconf])]
      rw [if_neg (show ¬(keepId?.getD leftId ≠ leftId ∧ keepId?.getD leftId ≠ rightId) from by
        tauto)]
      rw [hmm]
    rw [happ] at hsev
    have hfin := finishConflictMerge_not_severe hsev
    refine ⟨⟨_, by rw [happ, hfin], ?_, ?_, ?_⟩, ?_, ?_⟩
    · rcases hkeep with hk | hk
      · simp [hk, hLid]
      · have hrl : ¬ (rightId = leftId) := fun h => hne h.symm
        simp [hk, hrl, hRid]
    · rcases hkeep with hk | hk
      · simp [hk, hRid]
      · have hrl : ¬ (rightId = leftId) := fun h => hne h.symm
        simp [hk, hrl, hLid]
    · rfl
    · rw [happ, hfin]
      simp only [bucketFile_commit_disk, Option.getD_some, mem_sortItems]
      simp [pushBucket, setBucket, bucketList]
    · rw [happ, hfin]
      simp only [bucketFile_commit_disk, Option.getD_some, mem_sortItems]
      simp [pushBucket, setBucket, bucketList]

/-- A third active item sharing the slot of the witness pair, so that a merge
of the pair still conflicts with it. -/
def c4ItemC : MemoryItem :=
  mkItem "MEM-2024-01-003" "deploy" "mode" "green" .active "2024-01-01" "2099-01-01"

/-- A store where the merge preconditions hold for the pair 001/002 and a
third active item conflicts with any merged value. -/
def c4CexDisk : Disk :=
  { activeFile := some [c1WItemA, c4ItemC], pendingFile := some [c1WItemB]
    deprecatedFile := some [], canonicalFile := some [], runtimeFile := [] }

/-- C4 counterexample: every precondition the claim lists holds - the ids are
distinct, both are present, the pair is an active+pending unresolved
conflict, keepId defaults to leftId - yet the call fails, because the merged
item conflicts with a third active item and the post-merge audit verdict is
severe. -/
theorem C4_merge_counterexample :
    findItemStatus (loadedBuckets c4CexDisk) "MEM-2024-01-001" =
      some { status := .active, index := 0, item := c1WItemA } ∧
    findItemStatus (loadedBuckets c4CexDisk) "MEM-2024-01-002" =
      some { status := .pending, index := 0, item := c1WItemB } ∧
    ("MEM-2024-01-001" : String) ≠ "MEM-2024-01-002" ∧
    isUnresolvedConflictPair c1WItemA c1WItemB = true ∧
    (applyConflictMerge c4CexDisk "MEM-2024-01-001" "MEM-2024-01-002" (.str "merged") none
      "2024-06-01").2 = Except.error .severeAudit := by
  refine ⟨by decide, by decide, by decide, by decide, by decide⟩

theorem C4_merge_witness :
    (∃ r : MergeResult,
      (applyConflictMerge c1WDisk "MEM-2024-01-001" "MEM-2024-01-002" (.str "merged") none
        "2024-06-01").2 = .ok r ∧
      r.mergedId = "MEM-2024-01-001" ∧
      r.deprecatedId = "MEM-2024-01-002" ∧
      r.pairId = conflictPairId "MEM-2024-01-001" "MEM-2024-01-002") ∧
    { c1WItemA with
      status := MemoryStatus.active, value := .str "merged", updated := some "2024-06-01"
      next := some ("Merged conflict " ++
        conflictPairId "MEM-2024-01-001" "MEM-2024-01-002" ++ "; resolved by keeping " ++
        c1WItemA.id ++ ".") } ∈
      (bucketFile
        (applyConflictMerge c1WDisk "MEM-2024-01-001" "MEM-2024-01-002" (.str "merged") none
          "2024-06-01").1 .active).getD [] ∧
    { c1WItemB with
      status := MemoryStatus.deprecated, updated := some "2024-06-01"
      next := some ("Deprecated after conflict merge " ++
        conflictPairId "MEM-2024-01-001" "MEM-2024-01-002" ++ " into " ++
        c1WItemA.id ++ ".") } ∈
      (bucketFile
        (applyConflictMerge c1WDisk "MEM-2024-01-001" "MEM-2024-01-002" (.str "merged") none
          "2024-06-01").1 .deprecated).getD [] :=
  (C4_merge_amended c1WDisk "MEM-2024-01-001" "MEM-2024-01-002" (.str "merged") none
      "2024-06-01").2.2.2.2
    { status := .active, index := 0, item := c1WItemA }
    { status := .pending, index := 0, item := c1WItemB }
    (by decide) (by decide) (by decide) (by decide) (Or.inl rfl) (by decide)

end OpenClawMemory
